import Mathlib

/-!
Shallow embedding of the dujiaoka -> AuraLogic migration script
(`scripts/migrate_dujiaoka.py`).

The engine state (identifier maps, statistics counters, write log), the
client call outcomes and the three migration stages are translated
directly from the source.  Network responses are supplied by an oracle
(one function per API operation) so that simulate ("dry run") mode and
commit mode can be compared and the outgoing call log inspected.
Payload fields that no claim depends on (names, prices, images, ...)
are elided; identifiers, contents and flags that drive control flow are
kept.
-/

set_option autoImplicit false

namespace Migration

/-- One row of the source `carmis` table as the engine uses it: the code
content string (python truthiness: the empty string is falsy) and the
reusable ("loop") flag. -/
structure Carmi where
  carmi : String
  is_loop : Bool
deriving DecidableEq

/-- One row of the source `goods` table; only the primary key matters to
the claims (the payload built from the other columns never influences
maps, counters or call structure). -/
structure Goods where
  id : Int
deriving DecidableEq

/-- One row of the source `coupons` table: primary key and code string. -/
structure Coupon where
  id : Int
  code : String
deriving DecidableEq

/-- The subset of the promo-code payload the claims talk about: the
`product_scope` value and the optional `product_ids` list (absent field
modelled as `none`). -/
structure CouponPayload where
  code : String
  product_scope : String
  product_ids : Option (List Int)
deriving DecidableEq

/-- A parsed JSON response envelope for the create operations: the
target API returns the new identifier either at top level (`id`) or
nested (`data.id`); a missing field is `none`. -/
structure Resp where
  id : Option Int
  data_id : Option Int
deriving DecidableEq

/-- Response envelope of the single stock-item create operation, which
nests the identifier as `stock.id`. -/
structure StockResp where
  stock_id : Option Int
deriving DecidableEq

/-- `MigrationOptions` from the script (the fields the engine reads). -/
structure MigrationOptions where
  migrate_products : Bool := true
  migrate_carmis : Bool := true
  migrate_coupons : Bool := true
  dry_run : Bool := false
  batch_size : Nat := 50
  skip_disabled : Bool := false
deriving DecidableEq

/-- The source database, as the read-only accessors the engine calls:
`get_goods(skip_disabled)`, `get_carmis_by_goods` (unsold only, the
default the engine uses, so `get_carmis_count` is its length),
`get_coupons` and `get_coupon_goods`. -/
structure Dataset where
  goodsList : Bool → List Goods
  carmisOf : Int → List Carmi
  coupons : List Coupon
  couponGoods : Int → List Int

/-- One outgoing API call (a network write attempt).  Dry-run mode must
never produce any of these. -/
inductive Call where
  | createProduct (goodsId : Int)
  | createVinv (goodsId : Int)
  | importStock (vinvId : Int) (batch : List String)
  | createStockItem (vinvId : Int) (content : String)
  | reserveStock (vinvId : Int) (stockId : Int)
  | bindVinv (productId : Int) (vinvId : Int)
  | createPromo (payload : CouponPayload)
deriving DecidableEq

/-- Responses of the target API, one oracle function per operation; an
`Except.error` models the client raising (exhausted retries or HTTP
error status). -/
structure ClientOracle where
  createProduct : Int → Except String Resp
  createVinv : Int → Except String Resp
  importStock : Int → List String → Except String Unit
  createStockItem : Int → String → Except String StockResp
  reserveStock : Int → Int → Except String Unit
  bindVinv : Int → Int → Except String Unit
  createPromo : CouponPayload → Except String Unit

/-- A test double that always succeeds and always returns the (real,
positive) identifier 1, for simulate/commit comparisons. -/
def okOracle : ClientOracle where
  createProduct := fun _ => .ok { id := some 1, data_id := none }
  createVinv := fun _ => .ok { id := some 1, data_id := none }
  importStock := fun _ _ => .ok ()
  createStockItem := fun _ _ => .ok { stock_id := some 1 }
  reserveStock := fun _ _ => .ok ()
  bindVinv := fun _ _ => .ok ()
  createPromo := fun _ => .ok ()

/-- The statistics dictionary initialised in `MigrationEngine.__init__`. -/
structure Stats where
  products_created : Nat
  products_skipped : Nat
  products_failed : Nat
  vinv_created : Nat
  carmis_imported : Nat
  bindings_created : Nat
  coupons_created : Nat
  coupons_failed : Nat
deriving DecidableEq

/-- Mutable engine state: the two identifier maps (python dicts with
insertion order, modelled as association lists), the statistics and the
log of outgoing API calls. -/
structure EngineState where
  product_map : List (Int × Int)
  vinv_map : List (Int × Int)
  stats : Stats
  writes : List Call
deriving DecidableEq

/-- Association-list lookup, python `d[k]` / `k in d`. -/
def lookupA (m : List (Int × Int)) (k : Int) : Option Int :=
  match m with
  | [] => none
  | (k', v) :: rest => if k = k' then some v else lookupA rest k

/-- Association-list insert with python-dict semantics: updating an
existing key keeps its position, a new key is appended. -/
def insertA (m : List (Int × Int)) (k : Int) (v : Int) : List (Int × Int) :=
  match m with
  | [] => [(k, v)]
  | (k', v') :: rest => if k = k' then (k, v) :: rest else (k', v') :: insertA rest k v

/-- Python `a or b` on two optional integers, with integer truthiness
(0 and None are falsy). -/
def truthyOr (a b : Option Int) : Option Int :=
  match a with
  | none => b
  | some v => if v = 0 then b else some v

/-- The identifier extraction idiom
`pid = result.get("id") or result.get("data", {}).get("id")` followed by
the `if pid:` truthiness test: `some v` exactly when the script would
take the success branch. -/
def extractId (r : Resp) : Option Int :=
  match truthyOr r.id r.data_id with
  | none => none
  | some v => if v = 0 then none else some v

/-- The zero statistics of a fresh engine. -/
def initStats : Stats :=
  { products_created := 0, products_skipped := 0, products_failed := 0,
    vinv_created := 0, carmis_imported := 0, bindings_created := 0,
    coupons_created := 0, coupons_failed := 0 }

/-- Fresh engine state: empty maps, zero counters, no calls issued. -/
def initState : EngineState :=
  { product_map := [], vinv_map := [], stats := initStats, writes := [] }

/-- Body of the per-goods loop of `MigrationEngine.migrate_products`
(the `try` block plus its `except` arm). -/
def migrateProductsStep (opts : MigrationOptions) (o : ClientOracle)
    (st : EngineState) (g : Goods) : EngineState :=
  if opts.dry_run then
    { st with product_map := insertA st.product_map g.id (-1),
              stats := { st.stats with products_created := st.stats.products_created + 1 } }
  else
    match o.createProduct g.id with
    | .error _ =>
        { st with stats := { st.stats with products_failed := st.stats.products_failed + 1 },
                  writes := st.writes ++ [Call.createProduct g.id] }
    | .ok r =>
        let st1 := { st with writes := st.writes ++ [Call.createProduct g.id] }
        match extractId r with
        | some pid =>
            { st1 with product_map := insertA st1.product_map g.id pid,
                       stats := { st1.stats with products_created := st1.stats.products_created + 1 } }
        | none =>
            { st1 with stats := { st1.stats with products_failed := st1.stats.products_failed + 1 } }

/-- `MigrationEngine.migrate_products`: fold the per-goods step over
`reader.get_goods(skip_disabled)`. -/
def migrateProducts (opts : MigrationOptions) (o : ClientOracle) (ds : Dataset)
    (st : EngineState) : EngineState :=
  (ds.goodsList opts.skip_disabled).foldl (migrateProductsStep opts o) st

/-- Structural worker for `chunks`, recursing on a fuel bound that
dominates the list length. -/
def chunksAux {α : Type} (B : Nat) : Nat → List α → List (List α)
  | _, [] => []
  | 0, _ :: _ => []
  | fuel + 1, x :: xs =>
    if B = 0 then []
    else (x :: xs).take B :: chunksAux B fuel ((x :: xs).drop B)

/-- Python slicing loop `for i in range(0, len(l), B): l[i:i+B]`: split
a list into consecutive batches of size `B` (last one possibly short).
For `B = 0` the python loop raises; we return `[]` and every theorem
about batching assumes `1 ≤ B`. -/
def chunks {α : Type} (B : Nat) (l : List α) : List (List α) :=
  chunksAux B l.length l

/-- One bulk-import batch (step 2a of `_migrate_carmis_for_goods`): the
call is issued, on success the imported counter grows by the batch
size, on failure the error is only logged. -/
def importBatchStep (o : ClientOracle) (vinvId : Int)
    (s : EngineState) (batch : List String) : EngineState :=
  match o.importStock vinvId batch with
  | .ok _ =>
      { s with writes := s.writes ++ [Call.importStock vinvId batch],
               stats := { s.stats with carmis_imported := s.stats.carmis_imported + batch.length } }
  | .error _ =>
      { s with writes := s.writes ++ [Call.importStock vinvId batch] }

/-- One reusable ("loop") item (step 2b of `_migrate_carmis_for_goods`):
create the stock item individually, reserve it when a truthy `stock.id`
came back, then count it; any raise inside is caught and only logged
(and skips the counter increment). -/
def loopItemStep (o : ClientOracle) (vinvId : Int)
    (s : EngineState) (c : Carmi) : EngineState :=
  match o.createStockItem vinvId c.carmi with
  | .error _ => { s with writes := s.writes ++ [Call.createStockItem vinvId c.carmi] }
  | .ok r =>
      let s1 := { s with writes := s.writes ++ [Call.createStockItem vinvId c.carmi] }
      match r.stock_id with
      | some sid =>
          if sid ≠ 0 then
            match o.reserveStock vinvId sid with
            | .ok _ =>
                { s1 with writes := s1.writes ++ [Call.reserveStock vinvId sid],
                          stats := { s1.stats with carmis_imported := s1.stats.carmis_imported + 1 } }
            | .error _ => { s1 with writes := s1.writes ++ [Call.reserveStock vinvId sid] }
          else
            { s1 with stats := { s1.stats with carmis_imported := s1.stats.carmis_imported + 1 } }
      | none =>
          { s1 with stats := { s1.stats with carmis_imported := s1.stats.carmis_imported + 1 } }

/-- Step 3 of `_migrate_carmis_for_goods`: bind the inventory to the
product only for a real (positive) product id; a bind failure is caught
and only logged. -/
def bindStep (o : ClientOracle) (productId vinvId : Int) (s : EngineState) : EngineState :=
  if productId > 0 then
    match o.bindVinv productId vinvId with
    | .ok _ =>
        { s with writes := s.writes ++ [Call.bindVinv productId vinvId],
                 stats := { s.stats with bindings_created := s.stats.bindings_created + 1 } }
    | .error _ => { s with writes := s.writes ++ [Call.bindVinv productId vinvId] }
  else s

/-- `MigrationEngine._migrate_carmis_for_goods`.  The boolean result is
true when the body raised an exception that propagates to the caller
(only the unguarded `create_virtual_inventory` call can do that); the
returned state holds every mutation performed before that point. -/
def migrateCarmisForGoods (opts : MigrationOptions) (o : ClientOracle) (ds : Dataset)
    (goodsId productId : Int) (st : EngineState) : EngineState × Bool :=
  let carmis := ds.carmisOf goodsId
  if carmis.isEmpty then (st, false)
  else if opts.dry_run then
    ({ st with vinv_map := insertA st.vinv_map goodsId (-1),
               stats := { st.stats with
                 vinv_created := st.stats.vinv_created + 1,
                 carmis_imported := st.stats.carmis_imported + carmis.length } }, false)
  else
    match o.createVinv goodsId with
    | .error _ => ({ st with writes := st.writes ++ [Call.createVinv goodsId] }, true)
    | .ok r =>
        let st1 := { st with writes := st.writes ++ [Call.createVinv goodsId] }
        match extractId r with
        | none => (st1, false)
        | some vinvId =>
            let st2 := { st1 with
              vinv_map := insertA st1.vinv_map goodsId vinvId,
              stats := { st1.stats with vinv_created := st1.stats.vinv_created + 1 } }
            let normal_items := (carmis.filter fun c => c.carmi != "" && !c.is_loop).map Carmi.carmi
            let loop_items := carmis.filter fun c => c.carmi != "" && c.is_loop
            let st3 := (chunks opts.batch_size normal_items).foldl (importBatchStep o vinvId) st2
            let st4 := loop_items.foldl (loopItemStep o vinvId) st3
            (bindStep o productId vinvId st4, false)

/-- `MigrationEngine.migrate_carmis`: skip with a warning when no
products are mapped; otherwise process every mapped product that has at
least one unsold code, catching (and only logging) a raise from any
single unit. -/
def migrateCarmis (opts : MigrationOptions) (o : ClientOracle) (ds : Dataset)
    (st : EngineState) : EngineState :=
  if st.product_map.isEmpty then st
  else
    let goods_with_carmis := st.product_map.filter fun kv => !(ds.carmisOf kv.1).isEmpty
    goods_with_carmis.foldl (fun s kv => (migrateCarmisForGoods opts o ds kv.1 kv.2 s).1) st

/-- The coupon's target product list: mapped identifiers of referenced
source products, keeping only real (positive) mapped values, exactly
the list comprehension in `migrate_coupons`. -/
def mappedProductIds (pm : List (Int × Int)) (ds : Dataset) (c : Coupon) : List Int :=
  (ds.couponGoods c.id).filterMap fun gid =>
    match lookupA pm gid with
    | some pid => if pid > 0 then some pid else none
    | none => none

/-- The promo-code payload fields the claims inspect, built as in
`migrate_coupons`: a non-empty product list gives specific scope with
`product_ids`, an empty one gives platform-wide scope and no
`product_ids` key. -/
def couponPayload (pm : List (Int × Int)) (ds : Dataset) (c : Coupon) : CouponPayload :=
  let ids := mappedProductIds pm ds c
  { code := c.code,
    product_scope := if ids.isEmpty then "all" else "specific",
    product_ids := if ids.isEmpty then none else some ids }

/-- Body of the per-coupon loop of `MigrationEngine.migrate_coupons`
(the `try` block plus its `except` arm). -/
def migrateCouponStep (opts : MigrationOptions) (o : ClientOracle) (ds : Dataset)
    (st : EngineState) (c : Coupon) : EngineState :=
  let payload := couponPayload st.product_map ds c
  if opts.dry_run then
    { st with stats := { st.stats with coupons_created := st.stats.coupons_created + 1 } }
  else
    match o.createPromo payload with
    | .ok _ =>
        { st with writes := st.writes ++ [Call.createPromo payload],
                  stats := { st.stats with coupons_created := st.stats.coupons_created + 1 } }
    | .error _ =>
        { st with writes := st.writes ++ [Call.createPromo payload],
                  stats := { st.stats with coupons_failed := st.stats.coupons_failed + 1 } }

/-- `MigrationEngine.migrate_coupons` over `reader.get_coupons()`. -/
def migrateCoupons (opts : MigrationOptions) (o : ClientOracle) (ds : Dataset)
    (st : EngineState) : EngineState :=
  ds.coupons.foldl (migrateCouponStep opts o ds) st

/-- `MigrationEngine.run`: the three stages in order, each gated by its
option flag, starting from a fresh engine. -/
def runEngine (opts : MigrationOptions) (o : ClientOracle) (ds : Dataset) : EngineState :=
  let st1 := if opts.migrate_products then migrateProducts opts o ds initState else initState
  let st2 := if opts.migrate_carmis then migrateCarmis opts o ds st1 else st1
  if opts.migrate_coupons then migrateCoupons opts o ds st2 else st2

/-- The `migration_mapping.json` artifact written by `print_summary`:
both maps, keyed by the string form of the source identifiers. -/
structure MappingArtifact where
  product_map : List (String × Int)
  virtual_inventory_map : List (String × Int)
deriving DecidableEq

/-- Mapping-persistence step of `MigrationEngine.print_summary`. -/
def printSummaryArtifact (st : EngineState) : MappingArtifact :=
  { product_map := st.product_map.map fun kv => (toString kv.1, kv.2),
    virtual_inventory_map := st.vinv_map.map fun kv => (toString kv.1, kv.2) }

/-! ### The client request loop (`AuraLogicClient._request`) -/

/-- What one attempt of the transport observes: an explicit 429
rate-limit response (with its optional `Retry-After` header), a
transport-level exception (connection error or `raise_for_status`), or
a parsed success body. -/
inductive HttpOutcome where
  | rateLimited (retryAfter : Option Rat)
  | transportError (err : String)
  | success (body : Resp)

/-- The retry configuration of `AuraLogicConfig` (`retry_count`,
`retry_delay`); delays are rationals standing in for python floats. -/
structure RetryConfig where
  retry_count : Nat
  retry_delay : Rat

/-- The `for attempt in range(1, retry_count + 1)` loop of `_request`,
with `rem + 1` iterations left and the current attempt number
`retry_count - rem`.  Returns the sleeps performed (in order) and
either the parsed body or the terminal `RuntimeError`, whose payload is
`last_err` (`none` when no transport error was ever recorded).  A 429
sleeps for the server-provided duration, else `retry_delay * attempt`,
and moves on to the next attempt; a transport error records itself as
`last_err` and sleeps `retry_delay * attempt` unless this was the final
attempt. -/
def requestLoopAux (cfg : RetryConfig) (resp : Nat → HttpOutcome) :
    Nat → Option String → List Rat → List Rat × Except (Option String) Resp
  | 0, lastErr, waits => (waits, .error lastErr)
  | rem + 1, lastErr, waits =>
    let attempt := cfg.retry_count - rem
    match resp attempt with
    | .rateLimited ra =>
        requestLoopAux cfg resp rem lastErr
          (waits ++ [ra.getD (cfg.retry_delay * (attempt : Rat))])
    | .transportError e =>
        requestLoopAux cfg resp rem (some e)
          (if 0 < rem then waits ++ [cfg.retry_delay * (attempt : Rat)] else waits)
    | .success b => (waits, .ok b)

/-- `AuraLogicClient._request` retry behaviour: run the attempt loop
with the full attempt budget. -/
def requestLoop (cfg : RetryConfig) (resp : Nat → HttpOutcome) :
    List Rat × Except (Option String) Resp :=
  requestLoopAux cfg resp cfg.retry_count none []

/-! ### Session header handling of `_request` / `import_virtual_stock` -/

/-- The requests session header dictionary, as a partial map. -/
def Headers : Type := String → Option String

/-- `session.headers.pop(k, None)`: the popped map (the saved value is
read before popping). -/
def popHeader (h : Headers) (k : String) : Headers :=
  fun k' => if k' = k then none else h k'

/-- `session.headers[k] = v`. -/
def setHeader (h : Headers) (k v : String) : Headers :=
  fun k' => if k' = k then some v else h k'

/-- Intermediate result of processing `headers_override` at the top of
`_request`: the (possibly popped) session headers, the `saved_headers`
backup, and the per-request `kwargs["headers"]` entries. -/
structure OverrideAcc where
  sess : Headers
  saved : List (String × Option String)
  reqHeaders : List (String × String)

/-- The header discipline of `_request` around one call: process
`headers_override` (a `none` value pops the session header after saving
it, a `some` value goes into the per-request headers), run the body on
the effective headers, and in the `finally` block restore every saved
non-`None` value into the session.  Returns the body's outcome together
with the session headers after the `finally` block; restoration happens
on every exit path, also when `body` returns an error. -/
def requestWithOverride (session : Headers) (ov : List (String × Option String))
    (body : Headers → Except String Resp) : Except String Resp × Headers :=
  let acc := ov.foldl
    (fun (acc : OverrideAcc) kv =>
      match kv.2 with
      | none => { acc with sess := popHeader acc.sess kv.1,
                           saved := acc.saved ++ [(kv.1, acc.sess kv.1)] }
      | some v => { acc with reqHeaders := acc.reqHeaders ++ [(kv.1, v)] })
    { sess := session, saved := [], reqHeaders := [] }
  let effective := acc.reqHeaders.foldl (fun h kv => setHeader h kv.1 kv.2) acc.sess
  let result := body effective
  let restored := acc.saved.foldl
    (fun h kv => match kv.2 with | some v => setHeader h kv.1 v | none => h) acc.sess
  (result, restored)

/-- The override `import_virtual_stock` passes for its single call:
suppress the default JSON content type so the transport builds a
multipart body. -/
def importOverride : List (String × Option String) := [("Content-Type", none)]

/-! ### Association-list lemmas -/

/-- The key sequence of a map (python dict iteration order). -/
def keysOf (m : List (Int × Int)) : List Int := m.map Prod.fst

@[simp] theorem keysOf_nil : keysOf [] = [] := rfl

@[simp] theorem keysOf_cons (kv : Int × Int) (m : List (Int × Int)) :
    keysOf (kv :: m) = kv.1 :: keysOf m := rfl

theorem keysOf_insertA (m : List (Int × Int)) (k v : Int) :
    keysOf (insertA m k v) = if k ∈ keysOf m then keysOf m else keysOf m ++ [k] := by
  induction m with
  | nil => simp [insertA]
  | cons kv rest ih =>
    by_cases hk : k = kv.1
    · subst hk
      simp [insertA]
    · simp only [insertA, if_neg hk, keysOf_cons, ih, List.mem_cons]
      by_cases hmem : k ∈ keysOf rest
      · simp [hmem]
      · simp [hmem, hk]

theorem lookupA_eq_none (m : List (Int × Int)) (k : Int) (h : k ∉ keysOf m) :
    lookupA m k = none := by
  induction m with
  | nil => rfl
  | cons kv rest ih =>
    simp only [keysOf_cons, List.mem_cons, not_or] at h
    simp only [lookupA, if_neg h.1]
    exact ih h.2

theorem insertA_fresh (m : List (Int × Int)) (k v : Int) (h : k ∉ keysOf m) :
    insertA m k v = m ++ [(k, v)] := by
  induction m with
  | nil => rfl
  | cons kv rest ih =>
    simp only [keysOf_cons, List.mem_cons, not_or] at h
    simp only [insertA, if_neg h.1, List.cons_append, List.cons.injEq, true_and]
    exact ih h.2

theorem lookupA_append (m1 m2 : List (Int × Int)) (k : Int) :
    lookupA (m1 ++ m2) k =
      match lookupA m1 k with
      | some v => some v
      | none => lookupA m2 k := by
  induction m1 with
  | nil => simp [lookupA]
  | cons kv rest ih =>
    by_cases hk : k = kv.1
    · simp [lookupA, hk]
    · simp [lookupA, hk, ih]

theorem values_insertA (m : List (Int × Int)) (k v : Int)
    (hm : ∀ kv ∈ m, kv.2 = v) : ∀ kv ∈ insertA m k v, kv.2 = v := by
  induction m with
  | nil =>
    intro kv hkv
    simp only [insertA, List.mem_singleton] at hkv
    simp [hkv]
  | cons kv0 rest ih =>
    intro kv hkv
    by_cases hk : k = kv0.1
    · simp only [insertA, if_pos hk, List.mem_cons] at hkv
      rcases hkv with h | h
      · simp [h]
      · exact hm kv (List.mem_cons_of_mem _ h)
    · simp only [insertA, if_neg hk, List.mem_cons] at hkv
      rcases hkv with h | h
      · exact hm kv (h ▸ List.mem_cons_self _ _)
      · exact ih (fun x hx => hm x (List.mem_cons_of_mem _ hx)) kv h

/-! ### Lemmas about `chunks` (python batch slicing) -/

theorem chunksAux_congr {α : Type} (B : Nat) :
    ∀ (f1 f2 : Nat) (l : List α), l.length ≤ f1 → l.length ≤ f2 →
      chunksAux B f1 l = chunksAux B f2 l := by
  intro f1
  induction f1 with
  | zero =>
    intro f2 l h1 _
    have : l = [] := List.length_eq_zero.mp (Nat.le_zero.mp h1)
    subst this
    cases f2 <;> rfl
  | succ f ih =>
    intro f2 l h1 h2
    cases l with
    | nil => cases f2 <;> rfl
    | cons x xs =>
      cases f2 with
      | zero => simp at h2
      | succ f2 =>
        show (if B = 0 then [] else _) = (if B = 0 then [] else _)
        by_cases hB : B = 0
        · rw [if_pos hB, if_pos hB]
        · rw [if_neg hB, if_neg hB]
          congr 1
          refine ih f2 _ ?_ ?_ <;>
            · simp only [List.length_drop, List.length_cons] at *
              omega

theorem chunks_nil {α : Type} (B : Nat) : chunks B ([] : List α) = [] := rfl

theorem chunks_eq_cons {α : Type} {B : Nat} (hB : B ≠ 0) {l : List α} (hl : l ≠ []) :
    chunks B l = l.take B :: chunks B (l.drop B) := by
  cases l with
  | nil => exact absurd rfl hl
  | cons x xs =>
    show chunksAux B (xs.length + 1) (x :: xs) = _
    rw [chunksAux]
    rw [if_neg hB]
    congr 1
    refine chunksAux_congr B _ _ _ ?_ ?_ <;>
      · simp only [List.length_drop, List.length_cons]
        omega

theorem chunks_join {α : Type} {B : Nat} (hB : B ≠ 0) (l : List α) :
    (chunks B l).flatten = l := by
  have H : ∀ n (l : List α), l.length ≤ n → (chunks B l).flatten = l := by
    intro n
    induction n with
    | zero =>
      intro l hl
      have : l = [] := List.length_eq_zero.mp (Nat.le_zero.mp hl)
      subst this
      simp [chunks_nil]
    | succ n ih =>
      intro l hl
      rcases eq_or_ne l [] with rfl | hne
      · simp [chunks_nil]
      · rw [chunks_eq_cons hB hne, List.flatten_cons,
          ih (l.drop B) (by
            simp only [List.length_drop]
            have : 1 ≤ B := Nat.one_le_iff_ne_zero.mpr hB
            have : 1 ≤ l.length := by
              cases l with
              | nil => exact absurd rfl hne
              | cons a as => simp
            omega)]
        exact List.take_append_drop B l
  exact H l.length l le_rfl

theorem chunks_length {α : Type} {B : Nat} (hB : B ≠ 0) (l : List α) :
    (chunks B l).length = (l.length + B - 1) / B := by
  have hBpos : 0 < B := Nat.pos_of_ne_zero hB
  have H : ∀ n (l : List α), l.length ≤ n → (chunks B l).length = (l.length + B - 1) / B := by
    intro n
    induction n with
    | zero =>
      intro l hl
      have : l = [] := List.length_eq_zero.mp (Nat.le_zero.mp hl)
      subst this
      simp [chunks_nil, Nat.div_eq_of_lt (by omega : B - 1 < B)]
    | succ n ih =>
      intro l hl
      rcases eq_or_ne l [] with rfl | hne
      · simp [chunks_nil, Nat.div_eq_of_lt (by omega : B - 1 < B)]
      · have hpos : 1 ≤ l.length := by
          cases l with
          | nil => exact absurd rfl hne
          | cons a as => simp
        rw [chunks_eq_cons hB hne, List.length_cons,
          ih (l.drop B) (by simp only [List.length_drop]; omega)]
        simp only [List.length_drop]
        have h1 : l.length + B - 1 = (l.length - 1) + B := by omega
        rw [h1, Nat.add_div_right _ hBpos]
        by_cases hnB : B < l.length
        · have h2 : l.length - B + B - 1 = (l.length - B - 1) + B := by omega
          rw [h2, Nat.add_div_right _ hBpos]
          have h3 : l.length - 1 = (l.length - B - 1) + B := by omega
          rw [h3, Nat.add_div_right _ hBpos]
        · have h2 : l.length - B + B - 1 = B - 1 := by omega
          rw [h2, Nat.div_eq_of_lt (by omega : B - 1 < B),
            Nat.div_eq_of_lt (by omega : l.length - 1 < B)]
  exact H l.length l le_rfl

theorem chunks_mem {α : Type} {B : Nat} (hB : B ≠ 0) {l : List α}
    {b : List α} (hb : b ∈ chunks B l) {x : α} (hx : x ∈ b) : x ∈ l := by
  have := chunks_join hB l
  rw [← this]
  exact List.mem_flatten.mpr ⟨b, hb, hx⟩

/-! ### Products stage: closed forms -/

attribute [ext] Stats EngineState

/-- The net result of the create-product call for one goods row: `none`
when the client raised or no truthy identifier could be extracted,
otherwise the extracted identifier. -/
def createOutcomeId (o : ClientOracle) (g : Goods) : Option Int :=
  match o.createProduct g.id with
  | .error _ => none
  | .ok r => extractId r

theorem migrateProductsStep_dry (opts : MigrationOptions) (o : ClientOracle)
    (hdry : opts.dry_run = true) (st : EngineState) (g : Goods) :
    migrateProductsStep opts o st g =
      { st with product_map := insertA st.product_map g.id (-1),
                stats := { st.stats with products_created := st.stats.products_created + 1 } } := by
  simp [migrateProductsStep, hdry]

theorem migrateProductsStep_commit (opts : MigrationOptions) (o : ClientOracle)
    (hdry : opts.dry_run = false) (st : EngineState) (g : Goods) :
    migrateProductsStep opts o st g =
      match createOutcomeId o g with
      | some pid =>
          { st with product_map := insertA st.product_map g.id pid,
                    stats := { st.stats with products_created := st.stats.products_created + 1 },
                    writes := st.writes ++ [Call.createProduct g.id] }
      | none =>
          { st with stats := { st.stats with products_failed := st.stats.products_failed + 1 },
                    writes := st.writes ++ [Call.createProduct g.id] } := by
  simp only [migrateProductsStep, hdry, Bool.false_eq_true, if_false, createOutcomeId]
  cases h : o.createProduct g.id with
  | error e => simp
  | ok r =>
    cases hx : extractId r with
    | none => simp
    | some pid => simp

/-- The dry-run products fold inserts the sentinel for every goods row
and counts every row as created. -/
theorem productsFold_dry (opts : MigrationOptions) (o : ClientOracle)
    (hdry : opts.dry_run = true) :
    ∀ (gs : List Goods) (st : EngineState),
      gs.foldl (migrateProductsStep opts o) st =
        { st with
          product_map := gs.foldl (fun m g => insertA m g.id (-1)) st.product_map,
          stats := { st.stats with
            products_created := st.stats.products_created + gs.length } } := by
  intro gs
  induction gs with
  | nil => intro st; simp
  | cons g gs ih =>
    intro st
    rw [List.foldl_cons, migrateProductsStep_dry opts o hdry, ih]
    ext <;> simp <;> omega

/-- Map update performed by the commit-mode products stage. -/
def commitMapInsert (o : ClientOracle) (m : List (Int × Int)) (gs : List Goods) :
    List (Int × Int) :=
  gs.foldl (fun m g =>
    match createOutcomeId o g with
    | some pid => insertA m g.id pid
    | none => m) m

/-- The commit-mode products fold: per goods row one create call, a map
entry plus created-count on an extractable identifier, a failed-count
otherwise. -/
theorem productsFold_commit (opts : MigrationOptions) (o : ClientOracle)
    (hdry : opts.dry_run = false) :
    ∀ (gs : List Goods) (st : EngineState),
      gs.foldl (migrateProductsStep opts o) st =
        { st with
          product_map := commitMapInsert o st.product_map gs,
          stats := { st.stats with
            products_created := st.stats.products_created
              + gs.countP (fun g => (createOutcomeId o g).isSome),
            products_failed := st.stats.products_failed
              + gs.countP (fun g => (createOutcomeId o g).isNone) },
          writes := st.writes ++ gs.map (fun g => Call.createProduct g.id) } := by
  intro gs
  induction gs with
  | nil => intro st; simp [commitMapInsert]
  | cons g gs ih =>
    intro st
    rw [List.foldl_cons, migrateProductsStep_commit opts o hdry, ih]
    cases h : createOutcomeId o g with
    | some pid =>
      ext <;> simp [commitMapInsert, h, List.countP_cons] <;> omega
    | none =>
      ext <;> simp [commitMapInsert, h, List.countP_cons] <;> omega

/-- The entries the commit-mode products stage produces, in order: one
per goods row whose create call yielded an extractable identifier. -/
def productEntries (o : ClientOracle) (gs : List Goods) : List (Int × Int) :=
  gs.filterMap fun g => (createOutcomeId o g).map fun pid => (g.id, pid)

theorem keysOf_productEntries_subset (o : ClientOracle) :
    ∀ (gs : List Goods) (k : Int), k ∈ keysOf (productEntries o gs) → k ∈ gs.map Goods.id := by
  intro gs
  induction gs with
  | nil => intro k hk; simp [productEntries] at hk
  | cons g gs ih =>
    intro k hk
    cases h : createOutcomeId o g with
    | none =>
      simp only [productEntries, List.filterMap_cons, h, Option.map_none'] at hk
      exact List.mem_cons_of_mem _ (ih k hk)
    | some pid =>
      simp only [productEntries, List.filterMap_cons, h, Option.map_some', keysOf_cons,
        List.mem_cons] at hk
      rcases hk with hk | hk
      · simp [hk]
      · exact List.mem_cons_of_mem _ (ih k hk)

theorem commitMapInsert_eq_append (o : ClientOracle) :
    ∀ (gs : List Goods) (m : List (Int × Int)),
      (∀ g ∈ gs, g.id ∉ keysOf m) → (gs.map Goods.id).Nodup →
      commitMapInsert o m gs = m ++ productEntries o gs := by
  intro gs
  induction gs with
  | nil => intro m _ _; simp [commitMapInsert, productEntries]
  | cons g gs ih =>
    intro m hdisj hnd
    simp only [List.map_cons, List.nodup_cons] at hnd
    cases h : createOutcomeId o g with
    | none =>
      have : commitMapInsert o m (g :: gs) = commitMapInsert o m gs := by
        simp [commitMapInsert, h]
      rw [this, ih m (fun g' hg' => hdisj g' (List.mem_cons_of_mem _ hg')) hnd.2]
      simp [productEntries, List.filterMap_cons, h]
    | some pid =>
      have hfresh : g.id ∉ keysOf m := hdisj g (List.mem_cons_self _ _)
      have h1 : commitMapInsert o m (g :: gs) = commitMapInsert o (insertA m g.id pid) gs := by
        simp [commitMapInsert, h]
      rw [h1, insertA_fresh m g.id pid hfresh,
        ih (m ++ [(g.id, pid)]) ?_ hnd.2]
      · simp [productEntries, List.filterMap_cons, h]
      · intro g' hg'
        have h2 : g'.id ∈ gs.map Goods.id := List.mem_map_of_mem _ hg'
        have h3 : g'.id ≠ g.id := fun he => hnd.1 (he ▸ h2)
        simp only [keysOf, List.map_append, List.mem_append]
        push_neg
        refine ⟨fun hc => hdisj g' (List.mem_cons_of_mem _ hg') hc, ?_⟩
        simp [h3]

theorem lookupA_productEntries (o : ClientOracle) :
    ∀ (gs : List Goods), (gs.map Goods.id).Nodup →
      ∀ g ∈ gs, lookupA (productEntries o gs) g.id = createOutcomeId o g := by
  intro gs
  induction gs with
  | nil => intro _ g hg; simp at hg
  | cons g0 gs ih =>
    intro hnd g hg
    simp only [List.map_cons, List.nodup_cons] at hnd
    rcases List.mem_cons.mp hg with rfl | hg'
    · cases h : createOutcomeId o g with
      | some pid =>
        simp [productEntries, List.filterMap_cons, h, lookupA]
      | none =>
        simp only [productEntries, List.filterMap_cons, h, Option.map_none']
        exact lookupA_eq_none _ _ fun hc =>
          hnd.1 (keysOf_productEntries_subset o gs g.id hc)
    · have hne : g.id ≠ g0.id := by
        intro he
        exact hnd.1 (he ▸ List.mem_map_of_mem _ hg')
      cases h : createOutcomeId o g0 with
      | some pid =>
        simp only [productEntries, List.filterMap_cons, h, Option.map_some', lookupA,
          if_neg hne]
        exact ih hnd.2 g hg'
      | none =>
        simp only [productEntries, List.filterMap_cons, h, Option.map_none']
        exact ih hnd.2 g hg'

/-! ### Call-log extraction and stock-stage step lemmas -/

/-- The bulk-import calls in a call log, in order, as (inventory,
batch) pairs. -/
def importCallsOf (ws : List Call) : List (Int × List String) :=
  ws.filterMap fun c =>
    match c with
    | .importStock v b => some (v, b)
    | _ => none

/-- The single stock-item create calls in a call log, in order. -/
def stockCreateCallsOf (ws : List Call) : List (Int × String) :=
  ws.filterMap fun c =>
    match c with
    | .createStockItem v s => some (v, s)
    | _ => none

/-- The reserve calls in a call log, in order. -/
def reserveCallsOf (ws : List Call) : List (Int × Int) :=
  ws.filterMap fun c =>
    match c with
    | .reserveStock v s => some (v, s)
    | _ => none

theorem importCallsOf_append (a b : List Call) :
    importCallsOf (a ++ b) = importCallsOf a ++ importCallsOf b :=
  List.filterMap_append a b _

theorem stockCreateCallsOf_append (a b : List Call) :
    stockCreateCallsOf (a ++ b) = stockCreateCallsOf a ++ stockCreateCallsOf b :=
  List.filterMap_append a b _

theorem reserveCallsOf_append (a b : List Call) :
    reserveCallsOf (a ++ b) = reserveCallsOf a ++ reserveCallsOf b :=
  List.filterMap_append a b _

theorem importBatchStep_writes (o : ClientOracle) (v : Int) (s : EngineState)
    (b : List String) :
    (importBatchStep o v s b).writes = s.writes ++ [Call.importStock v b] := by
  cases h : o.importStock v b <;> simp [importBatchStep, h]

theorem importFold_importCalls (o : ClientOracle) (v : Int) :
    ∀ (bs : List (List String)) (s : EngineState),
      importCallsOf (bs.foldl (importBatchStep o v) s).writes
        = importCallsOf s.writes ++ bs.map fun b => (v, b) := by
  intro bs
  induction bs with
  | nil => intro s; simp
  | cons b bs ih =>
    intro s
    rw [List.foldl_cons, ih]
    rw [importBatchStep_writes, importCallsOf_append]
    simp [importCallsOf]

theorem importFold_stockCreateCalls (o : ClientOracle) (v : Int) :
    ∀ (bs : List (List String)) (s : EngineState),
      stockCreateCallsOf (bs.foldl (importBatchStep o v) s).writes
        = stockCreateCallsOf s.writes := by
  intro bs
  induction bs with
  | nil => intro s; rfl
  | cons b bs ih =>
    intro s
    rw [List.foldl_cons, ih, importBatchStep_writes, stockCreateCallsOf_append]
    simp [stockCreateCallsOf]

theorem importFold_reserveCalls (o : ClientOracle) (v : Int) :
    ∀ (bs : List (List String)) (s : EngineState),
      reserveCallsOf (bs.foldl (importBatchStep o v) s).writes
        = reserveCallsOf s.writes := by
  intro bs
  induction bs with
  | nil => intro s; rfl
  | cons b bs ih =>
    intro s
    rw [List.foldl_cons, ih, importBatchStep_writes, reserveCallsOf_append]
    simp [reserveCallsOf]

theorem loopItemStep_importCalls (o : ClientOracle) (v : Int) (s : EngineState)
    (c : Carmi) :
    importCallsOf (loopItemStep o v s c).writes = importCallsOf s.writes := by
  simp only [loopItemStep]
  cases h : o.createStockItem v c.carmi with
  | error e => simp [importCallsOf_append, importCallsOf]
  | ok r =>
    cases hs : r.stock_id with
    | none => simp [hs, importCallsOf_append, importCallsOf]
    | some sid =>
      simp only [hs]
      by_cases hz : sid ≠ 0
      · rw [if_pos hz]
        cases hr : o.reserveStock v sid with
        | ok u => simp [importCallsOf_append, importCallsOf]
        | error e => simp [importCallsOf_append, importCallsOf]
      · rw [if_neg hz]
        simp [importCallsOf_append, importCallsOf]

theorem loopItemStep_stockCreateCalls (o : ClientOracle) (v : Int) (s : EngineState)
    (c : Carmi) :
    stockCreateCallsOf (loopItemStep o v s c).writes
      = stockCreateCallsOf s.writes ++ [(v, c.carmi)] := by
  simp only [loopItemStep]
  cases h : o.createStockItem v c.carmi with
  | error e => simp [stockCreateCallsOf_append, stockCreateCallsOf]
  | ok r =>
    cases hs : r.stock_id with
    | none => simp [hs, stockCreateCallsOf_append, stockCreateCallsOf]
    | some sid =>
      simp only [hs]
      by_cases hz : sid ≠ 0
      · rw [if_pos hz]
        cases hr : o.reserveStock v sid with
        | ok u => simp [stockCreateCallsOf_append, stockCreateCallsOf]
        | error e => simp [stockCreateCallsOf_append, stockCreateCallsOf]
      · rw [if_neg hz]
        simp [stockCreateCallsOf_append, stockCreateCallsOf]

theorem loopFold_importCalls (o : ClientOracle) (v : Int) :
    ∀ (cs : List Carmi) (s : EngineState),
      importCallsOf (cs.foldl (loopItemStep o v) s).writes = importCallsOf s.writes := by
  intro cs
  induction cs with
  | nil => intro s; rfl
  | cons c cs ih =>
    intro s
    rw [List.foldl_cons, ih, loopItemStep_importCalls]

theorem loopFold_stockCreateCalls (o : ClientOracle) (v : Int) :
    ∀ (cs : List Carmi) (s : EngineState),
      stockCreateCallsOf (cs.foldl (loopItemStep o v) s).writes
        = stockCreateCallsOf s.writes ++ cs.map fun c => (v, c.carmi) := by
  intro cs
  induction cs with
  | nil => intro s; simp
  | cons c cs ih =>
    intro s
    rw [List.foldl_cons, ih, loopItemStep_stockCreateCalls]
    simp

theorem bindStep_importCalls (o : ClientOracle) (p v : Int) (s : EngineState) :
    importCallsOf (bindStep o p v s).writes = importCallsOf s.writes := by
  simp only [bindStep]
  by_cases hp : p > 0
  · rw [if_pos hp]
    cases h : o.bindVinv p v with
    | ok u => simp [importCallsOf_append, importCallsOf]
    | error e => simp [importCallsOf_append, importCallsOf]
  · rw [if_neg hp]

theorem bindStep_stockCreateCalls (o : ClientOracle) (p v : Int) (s : EngineState) :
    stockCreateCallsOf (bindStep o p v s).writes = stockCreateCallsOf s.writes := by
  simp only [bindStep]
  by_cases hp : p > 0
  · rw [if_pos hp]
    cases h : o.bindVinv p v with
    | ok u => simp [stockCreateCallsOf_append, stockCreateCallsOf]
    | error e => simp [stockCreateCallsOf_append, stockCreateCallsOf]
  · rw [if_neg hp]

theorem bindStep_reserveCalls (o : ClientOracle) (p v : Int) (s : EngineState) :
    reserveCallsOf (bindStep o p v s).writes = reserveCallsOf s.writes := by
  simp only [bindStep]
  by_cases hp : p > 0
  · rw [if_pos hp]
    cases h : o.bindVinv p v with
    | ok u => simp [reserveCallsOf_append, reserveCallsOf]
    | error e => simp [reserveCallsOf_append, reserveCallsOf]
  · rw [if_neg hp]

theorem loopItemStep_reserveCalls (o : ClientOracle) (v : Int) (s : EngineState)
    (c : Carmi) (sid : Int)
    (hok : o.createStockItem v c.carmi = .ok { stock_id := some sid }) (hz : sid ≠ 0) :
    reserveCallsOf (loopItemStep o v s c).writes
      = reserveCallsOf s.writes ++ [(v, sid)] := by
  simp only [loopItemStep, hok]
  rw [if_pos hz]
  cases hr : o.reserveStock v sid with
  | ok u => simp [reserveCallsOf_append, reserveCallsOf]
  | error e => simp [reserveCallsOf_append, reserveCallsOf]

theorem loopFold_reserveCalls (o : ClientOracle) (v : Int) (sidF : String → Int)
    (hok : ∀ content, o.createStockItem v content = .ok { stock_id := some (sidF content) })
    (hz : ∀ content, sidF content ≠ 0) :
    ∀ (cs : List Carmi) (s : EngineState),
      reserveCallsOf (cs.foldl (loopItemStep o v) s).writes
        = reserveCallsOf s.writes ++ cs.map fun c => (v, sidF c.carmi) := by
  intro cs
  induction cs with
  | nil => intro s; simp
  | cons c cs ih =>
    intro s
    rw [List.foldl_cons, ih,
      loopItemStep_reserveCalls o v s c (sidF c.carmi) (hok c.carmi) (hz c.carmi)]
    simp

/-! ### Dry-run and always-succeeding closed forms for the stock stage -/

@[simp] theorem extractId_some_one : extractId { id := some 1, data_id := none } = some 1 := rfl

@[simp] theorem createOutcomeId_okOracle (g : Goods) :
    createOutcomeId okOracle g = some 1 := rfl

theorem migrateCarmisForGoods_dry (opts : MigrationOptions) (o : ClientOracle)
    (ds : Dataset) (gid pid : Int) (st : EngineState) (hdry : opts.dry_run = true) :
    migrateCarmisForGoods opts o ds gid pid st =
      (if (ds.carmisOf gid).isEmpty then st
       else
        { st with vinv_map := insertA st.vinv_map gid (-1),
                  stats := { st.stats with
                    vinv_created := st.stats.vinv_created + 1,
                    carmis_imported := st.stats.carmis_imported + (ds.carmisOf gid).length } },
       false) := by
  by_cases he : (ds.carmisOf gid).isEmpty
  · simp [migrateCarmisForGoods, he]
  · simp [migrateCarmisForGoods, he, hdry]

theorem importFold_ok (v : Int) :
    ∀ (bs : List (List String)) (s : EngineState),
      bs.foldl (importBatchStep okOracle v) s =
        { s with
          stats := { s.stats with
            carmis_imported := s.stats.carmis_imported + (bs.map List.length).sum },
          writes := s.writes ++ bs.map fun b => Call.importStock v b } := by
  intro bs
  induction bs with
  | nil => intro s; simp
  | cons b bs ih =>
    intro s
    rw [List.foldl_cons]
    have hstep : importBatchStep okOracle v s b =
        { s with
          stats := { s.stats with carmis_imported := s.stats.carmis_imported + b.length },
          writes := s.writes ++ [Call.importStock v b] } := by
      simp [importBatchStep, okOracle]
    rw [hstep, ih]
    ext <;> simp <;> omega

theorem loopFold_ok (v : Int) :
    ∀ (cs : List Carmi) (s : EngineState),
      cs.foldl (loopItemStep okOracle v) s =
        { s with
          stats := { s.stats with
            carmis_imported := s.stats.carmis_imported + cs.length },
          writes := s.writes
            ++ (cs.map fun c =>
                  [Call.createStockItem v c.carmi, Call.reserveStock v 1]).flatten } := by
  intro cs
  induction cs with
  | nil => intro s; simp
  | cons c cs ih =>
    intro s
    rw [List.foldl_cons]
    have hstep : loopItemStep okOracle v s c =
        { s with
          stats := { s.stats with carmis_imported := s.stats.carmis_imported + 1 },
          writes := s.writes ++ [Call.createStockItem v c.carmi, Call.reserveStock v 1] } := by
      simp [loopItemStep, okOracle]
    rw [hstep, ih]
    ext <;> simp <;> omega

theorem bindStep_ok (p v : Int) (s : EngineState) :
    bindStep okOracle p v s =
      if p > 0 then
        { s with stats := { s.stats with bindings_created := s.stats.bindings_created + 1 },
                 writes := s.writes ++ [Call.bindVinv p v] }
      else s := by
  by_cases hp : p > 0
  · simp [bindStep, okOracle, hp]
  · simp [bindStep, hp]

/-- Splitting the codes of one product by the reusable flag loses
nothing when every content string is non-empty. -/
theorem filter_content_partition (cs : List Carmi)
    (h : ∀ c ∈ cs, c.carmi ≠ "") :
    (cs.filter fun c => c.carmi != "" && !c.is_loop).length
      + (cs.filter fun c => c.carmi != "" && c.is_loop).length = cs.length := by
  induction cs with
  | nil => simp
  | cons c cs ih =>
    have hc : c.carmi ≠ "" := h c (List.mem_cons_self _ _)
    have ih' := ih fun c' hc' => h c' (List.mem_cons_of_mem _ hc')
    cases hl : c.is_loop with
    | false =>
      have h1 : (c.carmi != "" && !c.is_loop) = true := by simp [hl, hc]
      have h2 : (c.carmi != "" && c.is_loop) = false := by simp [hl]
      simp [List.filter_cons, h1, h2]
      omega
    | true =>
      have h1 : (c.carmi != "" && !c.is_loop) = false := by simp [hl]
      have h2 : (c.carmi != "" && c.is_loop) = true := by simp [hl, hc]
      simp [List.filter_cons, h1, h2]
      omega

/-- Commit-mode stock migration of one product against the
always-succeeding client: statistics projections. -/
theorem migrateCarmisForGoods_okStats (opts : MigrationOptions) (ds : Dataset)
    (gid pid : Int) (st : EngineState) (hdry : opts.dry_run = false)
    (hB : opts.batch_size ≠ 0)
    (hcontent : ∀ c ∈ ds.carmisOf gid, c.carmi ≠ "") :
    ((migrateCarmisForGoods opts okOracle ds gid pid st).1).stats.products_created
        = st.stats.products_created ∧
    ((migrateCarmisForGoods opts okOracle ds gid pid st).1).stats.products_skipped
        = st.stats.products_skipped ∧
    ((migrateCarmisForGoods opts okOracle ds gid pid st).1).stats.products_failed
        = st.stats.products_failed ∧
    ((migrateCarmisForGoods opts okOracle ds gid pid st).1).stats.vinv_created
        = st.stats.vinv_created + (if (ds.carmisOf gid).isEmpty then 0 else 1) ∧
    ((migrateCarmisForGoods opts okOracle ds gid pid st).1).stats.carmis_imported
        = st.stats.carmis_imported + (ds.carmisOf gid).length ∧
    ((migrateCarmisForGoods opts okOracle ds gid pid st).1).stats.coupons_created
        = st.stats.coupons_created ∧
    ((migrateCarmisForGoods opts okOracle ds gid pid st).1).stats.coupons_failed
        = st.stats.coupons_failed := by
  by_cases he : (ds.carmisOf gid).isEmpty
  · have hlen : (ds.carmisOf gid).length = 0 := by
      simpa [List.isEmpty_iff, List.length_eq_zero] using he
    simp [migrateCarmisForGoods, he, hlen]
  · have hok : okOracle.createVinv gid = .ok { id := some 1, data_id := none } := rfl
    simp only [migrateCarmisForGoods, he, if_false, hdry, Bool.false_eq_true, hok,
      extractId_some_one]
    rw [importFold_ok, loopFold_ok, bindStep_ok]
    have hsum : (((chunks opts.batch_size
        ((List.filter (fun c => c.carmi != "" && !c.is_loop) (ds.carmisOf gid)).map
          Carmi.carmi)).map List.length).sum)
        = ((ds.carmisOf gid).filter fun c => c.carmi != "" && !c.is_loop).length := by
      have hj := chunks_join hB
        (((ds.carmisOf gid).filter fun c => c.carmi != "" && !c.is_loop).map Carmi.carmi)
      have := congrArg List.length hj
      rw [List.length_flatten] at this
      simpa using this
    have hpart := filter_content_partition (ds.carmisOf gid) hcontent
    by_cases hp : pid > 0 <;>
      · simp [hp, hsum]
        omega

/-- The per-unit fold of `migrate_carmis` (exceptions caught at the
unit boundary, only the state survives). -/
def carmisFold (opts : MigrationOptions) (o : ClientOracle) (ds : Dataset)
    (u : List (Int × Int)) (st : EngineState) : EngineState :=
  u.foldl (fun s kv => (migrateCarmisForGoods opts o ds kv.1 kv.2 s).1) st

theorem migrateCarmis_eq_fold (opts : MigrationOptions) (o : ClientOracle) (ds : Dataset)
    (st : EngineState) :
    migrateCarmis opts o ds st =
      if st.product_map.isEmpty then st
      else carmisFold opts o ds
        (st.product_map.filter fun kv => !(ds.carmisOf kv.1).isEmpty) st := rfl

theorem carmisFold_dry (opts : MigrationOptions) (o : ClientOracle) (ds : Dataset)
    (hdry : opts.dry_run = true) :
    ∀ (u : List (Int × Int)) (st : EngineState),
      carmisFold opts o ds u st =
        { st with
          vinv_map := u.foldl
            (fun m kv => if (ds.carmisOf kv.1).isEmpty then m else insertA m kv.1 (-1))
            st.vinv_map,
          stats := { st.stats with
            vinv_created := st.stats.vinv_created
              + u.countP (fun kv => !(ds.carmisOf kv.1).isEmpty),
            carmis_imported := st.stats.carmis_imported
              + (u.map fun kv => (ds.carmisOf kv.1).length).sum } } := by
  intro u
  induction u with
  | nil => intro st; simp [carmisFold]
  | cons kv u ih =>
    intro st
    have hfold : carmisFold opts o ds (kv :: u) st
        = carmisFold opts o ds u ((migrateCarmisForGoods opts o ds kv.1 kv.2 st).1) := rfl
    rw [hfold, migrateCarmisForGoods_dry opts o ds kv.1 kv.2 st hdry]
    by_cases he : (ds.carmisOf kv.1).isEmpty
    · have hlen : (ds.carmisOf kv.1).length = 0 := by
        simpa [List.isEmpty_iff, List.length_eq_zero] using he
      have hnil : ds.carmisOf kv.1 = [] := List.isEmpty_iff.mp he
      simp only [he, if_true]
      rw [ih]
      simp [List.countP_cons, he, hlen, hnil]
    · have hne : ¬ds.carmisOf kv.1 = [] := fun hc => he (List.isEmpty_iff.mpr hc)
      simp only [he, if_false]
      rw [ih]
      simp [List.countP_cons, he, hne, Nat.add_assoc, Nat.add_comm, Nat.add_left_comm]

theorem carmisFold_okStats (opts : MigrationOptions) (ds : Dataset)
    (hdry : opts.dry_run = false) (hB : opts.batch_size ≠ 0) :
    ∀ (u : List (Int × Int)) (st : EngineState),
      (∀ kv ∈ u, ∀ c ∈ ds.carmisOf kv.1, c.carmi ≠ "") →
      (carmisFold opts okOracle ds u st).stats.products_created
          = st.stats.products_created ∧
      (carmisFold opts okOracle ds u st).stats.products_skipped
          = st.stats.products_skipped ∧
      (carmisFold opts okOracle ds u st).stats.products_failed
          = st.stats.products_failed ∧
      (carmisFold opts okOracle ds u st).stats.vinv_created
          = st.stats.vinv_created + u.countP (fun kv => !(ds.carmisOf kv.1).isEmpty) ∧
      (carmisFold opts okOracle ds u st).stats.carmis_imported
          = st.stats.carmis_imported + (u.map fun kv => (ds.carmisOf kv.1).length).sum ∧
      (carmisFold opts okOracle ds u st).stats.coupons_created
          = st.stats.coupons_created ∧
      (carmisFold opts okOracle ds u st).stats.coupons_failed
          = st.stats.coupons_failed := by
  intro u
  induction u with
  | nil => intro st _; simp [carmisFold]
  | cons kv u ih =>
    intro st hcont
    have hunit := migrateCarmisForGoods_okStats opts ds kv.1 kv.2 st hdry hB
      (hcont kv (List.mem_cons_self _ _))
    have hrest := ih ((migrateCarmisForGoods opts okOracle ds kv.1 kv.2 st).1)
      (fun kv' hkv' => hcont kv' (List.mem_cons_of_mem _ hkv'))
    have hfold : carmisFold opts okOracle ds (kv :: u) st
        = carmisFold opts okOracle ds u
            ((migrateCarmisForGoods opts okOracle ds kv.1 kv.2 st).1) := rfl
    rw [hfold]
    obtain ⟨h1, h2, h3, h4, h5, h6, h7⟩ := hunit
    obtain ⟨g1, g2, g3, g4, g5, g6, g7⟩ := hrest
    refine ⟨?_, ?_, ?_, ?_, ?_, ?_, ?_⟩
    · rw [g1, h1]
    · rw [g2, h2]
    · rw [g3, h3]
    · rw [g4, h4]
      by_cases he : (ds.carmisOf kv.1).isEmpty
      · simp [List.countP_cons, he, Nat.add_assoc, Nat.add_comm, Nat.add_left_comm]
      · simp [List.countP_cons, he, Nat.add_assoc, Nat.add_comm, Nat.add_left_comm]
    · rw [g5, h5]
      simp only [List.map_cons, List.sum_cons]
      omega
    · rw [g6, h6]
    · rw [g7, h7]

/-! ### Key sequences are mode-independent -/

theorem keysOf_insertFold (v1 v2 : Int) :
    ∀ (gs : List Goods) (m1 m2 : List (Int × Int)), keysOf m1 = keysOf m2 →
      keysOf (gs.foldl (fun m g => insertA m g.id v1) m1)
        = keysOf (gs.foldl (fun m g => insertA m g.id v2) m2) := by
  intro gs
  induction gs with
  | nil => intro m1 m2 h; exact h
  | cons g gs ih =>
    intro m1 m2 h
    simp only [List.foldl_cons]
    exact ih _ _ (by rw [keysOf_insertA, keysOf_insertA, h])

theorem map_fst_filter (q : Int → Bool) :
    ∀ (m : List (Int × Int)),
      ((m.filter fun kv => q kv.1).map Prod.fst) = (m.map Prod.fst).filter q := by
  intro m
  induction m with
  | nil => rfl
  | cons kv m ih =>
    by_cases hq : q kv.1
    · simp [List.filter_cons, hq, ih]
    · simp [List.filter_cons, hq, ih]

/-! ### Coupon-stage lemmas -/

theorem migrateCouponStep_maps (opts : MigrationOptions) (o : ClientOracle) (ds : Dataset)
    (st : EngineState) (c : Coupon) :
    (migrateCouponStep opts o ds st c).product_map = st.product_map ∧
    (migrateCouponStep opts o ds st c).vinv_map = st.vinv_map := by
  by_cases hdry : opts.dry_run
  · simp [migrateCouponStep, hdry]
  · cases h : o.createPromo (couponPayload st.product_map ds c) <;>
      simp [migrateCouponStep, hdry, h]

theorem couponsFold_dry (opts : MigrationOptions) (o : ClientOracle) (ds : Dataset)
    (hdry : opts.dry_run = true) :
    ∀ (cs : List Coupon) (st : EngineState),
      cs.foldl (migrateCouponStep opts o ds) st =
        { st with stats := { st.stats with
            coupons_created := st.stats.coupons_created + cs.length } } := by
  intro cs
  induction cs with
  | nil => intro st; simp
  | cons c cs ih =>
    intro st
    rw [List.foldl_cons]
    have hstep : migrateCouponStep opts o ds st c =
        { st with stats := { st.stats with
            coupons_created := st.stats.coupons_created + 1 } } := by
      simp [migrateCouponStep, hdry]
    rw [hstep, ih]
    simp [Nat.add_assoc, Nat.add_comm, Nat.add_left_comm]

theorem couponsFold_okStats (opts : MigrationOptions) (ds : Dataset)
    (hdry : opts.dry_run = false) :
    ∀ (cs : List Coupon) (st : EngineState),
      (cs.foldl (migrateCouponStep opts okOracle ds) st).stats =
        { st.stats with coupons_created := st.stats.coupons_created + cs.length } := by
  intro cs
  induction cs with
  | nil => intro st; simp
  | cons c cs ih =>
    intro st
    rw [List.foldl_cons]
    have hstep : migrateCouponStep opts okOracle ds st c =
        { st with
          stats := { st.stats with
            coupons_created := st.stats.coupons_created + 1 },
          writes := st.writes
            ++ [Call.createPromo (couponPayload st.product_map ds c)] } := by
      simp [migrateCouponStep, hdry, okOracle]
    rw [hstep, ih]
    simp [Nat.add_assoc, Nat.add_comm, Nat.add_left_comm]

/-- Any coupon-stage fold, in any mode against any oracle: each coupon
adds exactly one to created-plus-failed and touches no other counter
and no map. -/
theorem couponsFold_counts (opts : MigrationOptions) (o : ClientOracle) (ds : Dataset) :
    ∀ (cs : List Coupon) (st : EngineState),
      (cs.foldl (migrateCouponStep opts o ds) st).stats.coupons_created
          + (cs.foldl (migrateCouponStep opts o ds) st).stats.coupons_failed
        = st.stats.coupons_created + st.stats.coupons_failed + cs.length ∧
      (cs.foldl (migrateCouponStep opts o ds) st).stats.products_created
        = st.stats.products_created ∧
      (cs.foldl (migrateCouponStep opts o ds) st).stats.products_skipped
        = st.stats.products_skipped ∧
      (cs.foldl (migrateCouponStep opts o ds) st).stats.products_failed
        = st.stats.products_failed ∧
      (cs.foldl (migrateCouponStep opts o ds) st).stats.vinv_created
        = st.stats.vinv_created ∧
      (cs.foldl (migrateCouponStep opts o ds) st).stats.carmis_imported
        = st.stats.carmis_imported ∧
      (cs.foldl (migrateCouponStep opts o ds) st).stats.bindings_created
        = st.stats.bindings_created ∧
      (cs.foldl (migrateCouponStep opts o ds) st).product_map = st.product_map ∧
      (cs.foldl (migrateCouponStep opts o ds) st).vinv_map = st.vinv_map := by
  intro cs
  induction cs with
  | nil => intro st; simp
  | cons c cs ih =>
    intro st
    rw [List.foldl_cons]
    have hstep :
        ((migrateCouponStep opts o ds st c).stats.coupons_created
            + (migrateCouponStep opts o ds st c).stats.coupons_failed
          = st.stats.coupons_created + st.stats.coupons_failed + 1) ∧
        (migrateCouponStep opts o ds st c).stats.products_created
          = st.stats.products_created ∧
        (migrateCouponStep opts o ds st c).stats.products_skipped
          = st.stats.products_skipped ∧
        (migrateCouponStep opts o ds st c).stats.products_failed
          = st.stats.products_failed ∧
        (migrateCouponStep opts o ds st c).stats.vinv_created
          = st.stats.vinv_created ∧
        (migrateCouponStep opts o ds st c).stats.carmis_imported
          = st.stats.carmis_imported ∧
        (migrateCouponStep opts o ds st c).stats.bindings_created
          = st.stats.bindings_created ∧
        (migrateCouponStep opts o ds st c).product_map = st.product_map ∧
        (migrateCouponStep opts o ds st c).vinv_map = st.vinv_map := by
      by_cases hdry : opts.dry_run
      · simp [migrateCouponStep, hdry]
        omega
      · cases h : o.createPromo (couponPayload st.product_map ds c) <;>
          · simp [migrateCouponStep, hdry, h]
            omega
    obtain ⟨s1, s2, s3, s4, s5, s6, s7, s8, s9⟩ := hstep
    obtain ⟨t1, t2, t3, t4, t5, t6, t7, t8, t9⟩ := ih (migrateCouponStep opts o ds st c)
    refine ⟨?_, ?_, ?_, ?_, ?_, ?_, ?_, ?_, ?_⟩
    · rw [t1, s1]
      simp [List.length_cons]
      omega
    · rw [t2, s2]
    · rw [t3, s3]
    · rw [t4, s4]
    · rw [t5, s5]
    · rw [t6, s6]
    · rw [t7, s7]
    · rw [t8, s8]
    · rw [t9, s9]

/-! ### No engine operation touches the products-skipped counter -/

theorem migrateProductsStep_skipped (opts : MigrationOptions) (o : ClientOracle)
    (st : EngineState) (g : Goods) :
    (migrateProductsStep opts o st g).stats.products_skipped
      = st.stats.products_skipped := by
  by_cases hdry : opts.dry_run
  · simp [migrateProductsStep, hdry]
  · simp only [migrateProductsStep, hdry, if_false, Bool.false_eq_true]
    cases h : o.createProduct g.id with
    | error e => simp
    | ok r => cases hx : extractId r <;> simp [hx]

theorem productsFold_skipped (opts : MigrationOptions) (o : ClientOracle) :
    ∀ (gs : List Goods) (st : EngineState),
      (gs.foldl (migrateProductsStep opts o) st).stats.products_skipped
        = st.stats.products_skipped := by
  intro gs
  induction gs with
  | nil => intro st; rfl
  | cons g gs ih =>
    intro st
    rw [List.foldl_cons, ih, migrateProductsStep_skipped]

theorem importBatchStep_skipped (o : ClientOracle) (v : Int) (s : EngineState)
    (b : List String) :
    (importBatchStep o v s b).stats.products_skipped = s.stats.products_skipped := by
  cases h : o.importStock v b <;> simp [importBatchStep, h]

theorem loopItemStep_skipped (o : ClientOracle) (v : Int) (s : EngineState) (c : Carmi) :
    (loopItemStep o v s c).stats.products_skipped = s.stats.products_skipped := by
  simp only [loopItemStep]
  cases h : o.createStockItem v c.carmi with
  | error e => simp
  | ok r =>
    cases hs : r.stock_id with
    | none => simp [hs]
    | some sid =>
      simp only [hs]
      by_cases hz : sid ≠ 0
      · rw [if_pos hz]
        cases hr : o.reserveStock v sid <;> simp
      · rw [if_neg hz]

theorem bindStep_skipped (o : ClientOracle) (p v : Int) (s : EngineState) :
    (bindStep o p v s).stats.products_skipped = s.stats.products_skipped := by
  simp only [bindStep]
  by_cases hp : p > 0
  · rw [if_pos hp]
    cases h : o.bindVinv p v <;> simp
  · rw [if_neg hp]

theorem migrateCarmisForGoods_skipped (opts : MigrationOptions) (o : ClientOracle)
    (ds : Dataset) (gid pid : Int) (st : EngineState) :
    ((migrateCarmisForGoods opts o ds gid pid st).1).stats.products_skipped
      = st.stats.products_skipped := by
  simp only [migrateCarmisForGoods]
  by_cases he : (ds.carmisOf gid).isEmpty
  · simp [he]
  · simp only [he, if_false]
    by_cases hdry : opts.dry_run
    · simp [hdry]
    · simp only [hdry, if_false, Bool.false_eq_true]
      cases h : o.createVinv gid with
      | error e => simp
      | ok r =>
        cases hx : extractId r with
        | none => simp [hx]
        | some v =>
          simp only [hx]
          rw [bindStep_skipped]
          have hloop : ∀ (cs : List Carmi) (s : EngineState),
              (cs.foldl (loopItemStep o v) s).stats.products_skipped
                = s.stats.products_skipped := by
            intro cs
            induction cs with
            | nil => intro s; rfl
            | cons c cs ih => intro s; rw [List.foldl_cons, ih, loopItemStep_skipped]
          have himp : ∀ (bs : List (List String)) (s : EngineState),
              (bs.foldl (importBatchStep o v) s).stats.products_skipped
                = s.stats.products_skipped := by
            intro bs
            induction bs with
            | nil => intro s; rfl
            | cons b bs ih => intro s; rw [List.foldl_cons, ih, importBatchStep_skipped]
          rw [hloop, himp]

theorem carmisFold_skipped (opts : MigrationOptions) (o : ClientOracle) (ds : Dataset) :
    ∀ (u : List (Int × Int)) (st : EngineState),
      (carmisFold opts o ds u st).stats.products_skipped
        = st.stats.products_skipped := by
  intro u
  induction u with
  | nil => intro st; rfl
  | cons kv u ih =>
    intro st
    have hfold : carmisFold opts o ds (kv :: u) st
        = carmisFold opts o ds u ((migrateCarmisForGoods opts o ds kv.1 kv.2 st).1) := rfl
    rw [hfold, ih, migrateCarmisForGoods_skipped]

theorem migrateCarmis_skipped (opts : MigrationOptions) (o : ClientOracle)
    (ds : Dataset) (st : EngineState) :
    (migrateCarmis opts o ds st).stats.products_skipped
      = st.stats.products_skipped := by
  rw [migrateCarmis_eq_fold]
  by_cases he : st.product_map.isEmpty
  · simp [he]
  · simp [he, carmisFold_skipped]

theorem migrateCoupons_skipped (opts : MigrationOptions) (o : ClientOracle)
    (ds : Dataset) (st : EngineState) :
    (migrateCoupons opts o ds st).stats.products_skipped
      = st.stats.products_skipped :=
  (couponsFold_counts opts o ds ds.coupons st).2.2.1

/-! ### Dry-run invariant: sentinel-only maps and an empty call log -/

/-- What a simulate-mode engine state must look like: every mapped
value is the sentinel -1 and no network call was issued. -/
def DryInv (st : EngineState) : Prop :=
  (∀ kv ∈ st.product_map, kv.2 = -1) ∧ (∀ kv ∈ st.vinv_map, kv.2 = -1) ∧ st.writes = []

theorem dryInv_initState : DryInv initState := by
  refine ⟨?_, ?_, rfl⟩ <;> intro kv hkv <;> simp [initState] at hkv

theorem foldl_insert_neg_values (gs : List Goods) :
    ∀ (m : List (Int × Int)), (∀ kv ∈ m, kv.2 = -1) →
      ∀ kv ∈ gs.foldl (fun m g => insertA m g.id (-1)) m, kv.2 = -1 := by
  induction gs with
  | nil => intro m hm; exact hm
  | cons g gs ih =>
    intro m hm
    exact ih _ (values_insertA m g.id (-1) hm)

theorem migrateProducts_dryInv (opts : MigrationOptions) (o : ClientOracle) (ds : Dataset)
    (st : EngineState) (hdry : opts.dry_run = true) (h : DryInv st) :
    DryInv (migrateProducts opts o ds st) := by
  rw [migrateProducts, productsFold_dry opts o hdry]
  exact ⟨foldl_insert_neg_values _ st.product_map h.1, h.2.1, h.2.2⟩

theorem vinvFold_neg_values (ds : Dataset) (u : List (Int × Int)) :
    ∀ (m : List (Int × Int)), (∀ kv ∈ m, kv.2 = -1) →
      ∀ kv ∈ u.foldl
        (fun m kv => if (ds.carmisOf kv.1).isEmpty then m else insertA m kv.1 (-1)) m,
        kv.2 = -1 := by
  induction u with
  | nil => intro m hm; exact hm
  | cons kv0 u ih =>
    intro m hm
    simp only [List.foldl_cons]
    by_cases he : (ds.carmisOf kv0.1).isEmpty
    · simp only [he, if_true]
      exact ih m hm
    · simp only [he, if_false]
      exact ih _ (values_insertA m kv0.1 (-1) hm)

theorem migrateCarmis_dryInv (opts : MigrationOptions) (o : ClientOracle) (ds : Dataset)
    (st : EngineState) (hdry : opts.dry_run = true) (h : DryInv st) :
    DryInv (migrateCarmis opts o ds st) := by
  rw [migrateCarmis_eq_fold]
  by_cases he : st.product_map.isEmpty
  · simp only [he, if_true]
    exact h
  · simp only [he, if_false]
    rw [carmisFold_dry opts o ds hdry]
    exact ⟨h.1, vinvFold_neg_values ds _ st.vinv_map h.2.1, h.2.2⟩

theorem migrateCoupons_dryInv (opts : MigrationOptions) (o : ClientOracle) (ds : Dataset)
    (st : EngineState) (hdry : opts.dry_run = true) (h : DryInv st) :
    DryInv (migrateCoupons opts o ds st) := by
  rw [migrateCoupons, couponsFold_dry opts o ds hdry]
  exact h

/-- A full simulate-mode run keeps the dry-run invariant. -/
theorem runEngine_dryInv (opts : MigrationOptions) (o : ClientOracle) (ds : Dataset)
    (hdry : opts.dry_run = true) : DryInv (runEngine opts o ds) := by
  unfold runEngine
  have h1 : DryInv (if opts.migrate_products then migrateProducts opts o ds initState
      else initState) := by
    by_cases hp : opts.migrate_products
    · simp only [hp, if_true]
      exact migrateProducts_dryInv opts o ds initState hdry dryInv_initState
    · simp only [hp, if_false]
      exact dryInv_initState
  have h2 : DryInv (if opts.migrate_carmis then
      migrateCarmis opts o ds (if opts.migrate_products then
        migrateProducts opts o ds initState else initState)
      else (if opts.migrate_products then migrateProducts opts o ds initState
        else initState)) := by
    by_cases hc : opts.migrate_carmis
    · simp only [hc, if_true]
      exact migrateCarmis_dryInv opts o ds _ hdry h1
    · simp only [hc, if_false]
      exact h1
  by_cases hq : opts.migrate_coupons
  · simp only [hq, if_true]
    exact migrateCoupons_dryInv opts o ds _ hdry h2
  · simp only [hq, if_false]
    exact h2

/-! ### Simulate/commit statistics comparison -/

/-- The stock stage never touches the product map. -/
theorem migrateCarmisForGoods_productMap (opts : MigrationOptions) (o : ClientOracle)
    (ds : Dataset) (gid pid : Int) (st : EngineState) :
    ((migrateCarmisForGoods opts o ds gid pid st).1).product_map = st.product_map := by
  simp only [migrateCarmisForGoods]
  by_cases he : (ds.carmisOf gid).isEmpty
  · simp [he]
  · simp only [he, if_false]
    by_cases hdry : opts.dry_run
    · simp [hdry]
    · simp only [hdry, if_false, Bool.false_eq_true]
      cases h : o.createVinv gid with
      | error e => simp
      | ok r =>
        cases hx : extractId r with
        | none => simp [hx]
        | some v =>
          simp only [hx]
          have hbind : ∀ s : EngineState, (bindStep o pid v s).product_map = s.product_map := by
            intro s
            simp only [bindStep]
            by_cases hp : pid > 0
            · rw [if_pos hp]
              cases hb : o.bindVinv pid v <;> simp
            · rw [if_neg hp]
          have hloop : ∀ (cs : List Carmi) (s : EngineState),
              (cs.foldl (loopItemStep o v) s).product_map = s.product_map := by
            intro cs
            induction cs with
            | nil => intro s; rfl
            | cons c cs ih =>
              intro s
              rw [List.foldl_cons, ih]
              simp only [loopItemStep]
              cases hc : o.createStockItem v c.carmi with
              | error e => simp
              | ok r2 =>
                cases hs : r2.stock_id with
                | none => simp [hs]
                | some sid =>
                  simp only [hs]
                  by_cases hz : sid ≠ 0
                  · rw [if_pos hz]
                    cases hr : o.reserveStock v sid <;> simp
                  · rw [if_neg hz]
          have himp : ∀ (bs : List (List String)) (s : EngineState),
              (bs.foldl (importBatchStep o v) s).product_map = s.product_map := by
            intro bs
            induction bs with
            | nil => intro s; rfl
            | cons b bs ih =>
              intro s
              rw [List.foldl_cons, ih]
              cases hb : o.importStock v b <;> simp [importBatchStep, hb]
          rw [hbind, hloop, himp]

theorem carmisFold_productMap (opts : MigrationOptions) (o : ClientOracle) (ds : Dataset) :
    ∀ (u : List (Int × Int)) (st : EngineState),
      (carmisFold opts o ds u st).product_map = st.product_map := by
  intro u
  induction u with
  | nil => intro st; rfl
  | cons kv u ih =>
    intro st
    have hfold : carmisFold opts o ds (kv :: u) st
        = carmisFold opts o ds u ((migrateCarmisForGoods opts o ds kv.1 kv.2 st).1) := rfl
    rw [hfold, ih, migrateCarmisForGoods_productMap]

/-- Relation between a simulate-mode state and a commit-mode state
built from the same dataset against the always-succeeding client: the
product maps carry the same keys in the same order and every statistics
counter except the binding counter agrees. -/
def ParityInv (s1 s2 : EngineState) : Prop :=
  keysOf s1.product_map = keysOf s2.product_map ∧
  s1.stats.products_created = s2.stats.products_created ∧
  s1.stats.products_skipped = s2.stats.products_skipped ∧
  s1.stats.products_failed = s2.stats.products_failed ∧
  s1.stats.vinv_created = s2.stats.vinv_created ∧
  s1.stats.carmis_imported = s2.stats.carmis_imported ∧
  s1.stats.coupons_created = s2.stats.coupons_created ∧
  s1.stats.coupons_failed = s2.stats.coupons_failed

theorem commitMapInsert_okOracle (m : List (Int × Int)) (gs : List Goods) :
    commitMapInsert okOracle m gs = gs.foldl (fun m g => insertA m g.id 1) m := rfl

theorem countP_okOracle_isSome (gs : List Goods) :
    (gs.countP fun g => (createOutcomeId okOracle g).isSome) = gs.length := by
  simp

theorem countP_okOracle_isNone (gs : List Goods) :
    (gs.countP fun g => (createOutcomeId okOracle g).isNone) = 0 := by
  simp

theorem productsStage_parity (opts1 opts2 : MigrationOptions) (o : ClientOracle)
    (ds : Dataset) (hdry1 : opts1.dry_run = true) (hdry2 : opts2.dry_run = false)
    (hskip : opts1.skip_disabled = opts2.skip_disabled)
    (s1 s2 : EngineState) (h : ParityInv s1 s2) :
    ParityInv (migrateProducts opts1 o ds s1) (migrateProducts opts2 okOracle ds s2) := by
  rw [migrateProducts, migrateProducts, productsFold_dry opts1 o hdry1,
    productsFold_commit opts2 okOracle hdry2, hskip]
  obtain ⟨hk, h2, h3, h4, h5, h6, h7, h8⟩ := h
  refine ⟨?_, ?_, h3, ?_, h5, h6, h7, h8⟩
  · rw [commitMapInsert_okOracle]
    exact keysOf_insertFold (-1) 1 _ _ _ hk
  · simp only [countP_okOracle_isSome]
    omega
  · simp only [countP_okOracle_isNone]
    omega

theorem keysOf_eq_nil_iff (m : List (Int × Int)) : keysOf m = [] ↔ m = [] := by
  cases m <;> simp [keysOf]

theorem carmisStage_parity (opts1 opts2 : MigrationOptions) (o : ClientOracle)
    (ds : Dataset) (hdry1 : opts1.dry_run = true) (hdry2 : opts2.dry_run = false)
    (hB : opts2.batch_size ≠ 0)
    (hcontent : ∀ gid : Int, ∀ c ∈ ds.carmisOf gid, c.carmi ≠ "")
    (s1 s2 : EngineState) (h : ParityInv s1 s2) :
    ParityInv (migrateCarmis opts1 o ds s1) (migrateCarmis opts2 okOracle ds s2) := by
  obtain ⟨hk, h2, h3, h4, h5, h6, h7, h8⟩ := h
  rw [migrateCarmis_eq_fold, migrateCarmis_eq_fold]
  have hemp : s1.product_map.isEmpty = s2.product_map.isEmpty := by
    rcases he1 : s1.product_map with _ | ⟨kv, m⟩ <;> rcases he2 : s2.product_map with _ | ⟨kv', m'⟩
    · rfl
    · rw [he1, he2] at hk
      simp [keysOf] at hk
    · rw [he1, he2] at hk
      simp [keysOf] at hk
    · rfl
  by_cases he : s1.product_map.isEmpty
  · rw [if_pos he, if_pos (hemp ▸ he)]
    exact ⟨hk, h2, h3, h4, h5, h6, h7, h8⟩
  · rw [if_neg he, if_neg (fun hc => he (hemp ▸ hc))]
    have hfst : ((s1.product_map.filter fun kv => !(ds.carmisOf kv.1).isEmpty).map Prod.fst)
        = ((s2.product_map.filter fun kv => !(ds.carmisOf kv.1).isEmpty).map Prod.fst) := by
      rw [map_fst_filter (fun k => !(ds.carmisOf k).isEmpty) s1.product_map,
        map_fst_filter (fun k => !(ds.carmisOf k).isEmpty) s2.product_map]
      show (keysOf s1.product_map).filter _ = (keysOf s2.product_map).filter _
      rw [hk]
    set u1 := s1.product_map.filter fun kv => !(ds.carmisOf kv.1).isEmpty with hu1
    set u2 := s2.product_map.filter fun kv => !(ds.carmisOf kv.1).isEmpty with hu2
    have hdryfold := carmisFold_dry opts1 o ds hdry1 u1 s1
    have hcont2 : ∀ kv ∈ u2, ∀ c ∈ ds.carmisOf kv.1, c.carmi ≠ "" :=
      fun kv _ => hcontent kv.1
    have hokfold := carmisFold_okStats opts2 ds hdry2 hB u2 s2 hcont2
    obtain ⟨g1, g2, g3, g4, g5, g6, g7⟩ := hokfold
    have hcount : u1.countP (fun kv => !(ds.carmisOf kv.1).isEmpty)
        = u2.countP (fun kv => !(ds.carmisOf kv.1).isEmpty) := by
      have e1 : u1.countP (fun kv => !(ds.carmisOf kv.1).isEmpty)
          = (u1.map Prod.fst).countP (fun k => !(ds.carmisOf k).isEmpty) := by
        rw [List.countP_map]
        rfl
      have e2 : u2.countP (fun kv => !(ds.carmisOf kv.1).isEmpty)
          = (u2.map Prod.fst).countP (fun k => !(ds.carmisOf k).isEmpty) := by
        rw [List.countP_map]
        rfl
      rw [e1, e2, hfst]
    have hsum : (u1.map fun kv => (ds.carmisOf kv.1).length).sum
        = (u2.map fun kv => (ds.carmisOf kv.1).length).sum := by
      have e1 : (u1.map fun kv => (ds.carmisOf kv.1).length)
          = ((u1.map Prod.fst).map fun k => (ds.carmisOf k).length) := by
        rw [List.map_map]
        rfl
      have e2 : (u2.map fun kv => (ds.carmisOf kv.1).length)
          = ((u2.map Prod.fst).map fun k => (ds.carmisOf k).length) := by
        rw [List.map_map]
        rfl
      rw [e1, e2, hfst]
    refine ⟨?_, ?_, ?_, ?_, ?_, ?_, ?_, ?_⟩
    · rw [carmisFold_productMap, carmisFold_productMap]
      exact hk
    · rw [hdryfold, g1]
      simpa using h2
    · rw [hdryfold, g2]
      simpa using h3
    · rw [hdryfold, g3]
      simpa using h4
    · rw [hdryfold, g4]
      simp [hcount, h5]
    · rw [hdryfold, g5]
      simp [hsum, h6]
    · rw [hdryfold, g6]
      simpa using h7
    · rw [hdryfold, g7]
      simpa using h8

theorem couponsStage_parity (opts1 opts2 : MigrationOptions) (o : ClientOracle)
    (ds : Dataset) (hdry1 : opts1.dry_run = true) (hdry2 : opts2.dry_run = false)
    (s1 s2 : EngineState) (h : ParityInv s1 s2) :
    ParityInv (migrateCoupons opts1 o ds s1) (migrateCoupons opts2 okOracle ds s2) := by
  obtain ⟨hk, h2, h3, h4, h5, h6, h7, h8⟩ := h
  have hmap := (couponsFold_counts opts2 okOracle ds ds.coupons s2).2.2.2.2.2.2.2.1
  have hok := couponsFold_okStats opts2 ds hdry2 ds.coupons s2
  rw [migrateCoupons, migrateCoupons, couponsFold_dry opts1 o ds hdry1]
  refine ⟨?_, ?_, ?_, ?_, ?_, ?_, ?_, ?_⟩
  · show keysOf s1.product_map = _
    rw [hmap]
    exact hk
  · rw [hok]
    simpa using h2
  · rw [hok]
    simpa using h3
  · rw [hok]
    simpa using h4
  · rw [hok]
    simpa using h5
  · rw [hok]
    simpa using h6
  · rw [hok]
    simpa using h7
  · rw [hok]
    simpa using h8

theorem migrateProducts_dry_bindings (opts : MigrationOptions) (o : ClientOracle)
    (ds : Dataset) (st : EngineState) (hdry : opts.dry_run = true) :
    (migrateProducts opts o ds st).stats.bindings_created
      = st.stats.bindings_created := by
  rw [migrateProducts, productsFold_dry opts o hdry]

theorem migrateCarmis_dry_bindings (opts : MigrationOptions) (o : ClientOracle)
    (ds : Dataset) (st : EngineState) (hdry : opts.dry_run = true) :
    (migrateCarmis opts o ds st).stats.bindings_created
      = st.stats.bindings_created := by
  rw [migrateCarmis_eq_fold]
  by_cases he : st.product_map.isEmpty
  · rw [if_pos he]
  · rw [if_neg he, carmisFold_dry opts o ds hdry]

theorem migrateCoupons_dry_bindings (opts : MigrationOptions) (o : ClientOracle)
    (ds : Dataset) (st : EngineState) (hdry : opts.dry_run = true) :
    (migrateCoupons opts o ds st).stats.bindings_created
      = st.stats.bindings_created := by
  rw [migrateCoupons, couponsFold_dry opts o ds hdry]

/-- A simulate-mode run never increments the binding counter: the
stock routine returns before reaching the bind step. -/
theorem runEngine_dry_bindings (opts : MigrationOptions) (o : ClientOracle)
    (ds : Dataset) (hdry : opts.dry_run = true) :
    (runEngine opts o ds).stats.bindings_created = 0 := by
  unfold runEngine
  have h1 : (if opts.migrate_products then migrateProducts opts o ds initState
      else initState).stats.bindings_created = 0 := by
    by_cases hp : opts.migrate_products
    · rw [if_pos hp, migrateProducts_dry_bindings opts o ds initState hdry]
      rfl
    · rw [if_neg hp]
      rfl
  have h2 : (if opts.migrate_carmis then
      migrateCarmis opts o ds (if opts.migrate_products then
        migrateProducts opts o ds initState else initState)
      else (if opts.migrate_products then migrateProducts opts o ds initState
        else initState)).stats.bindings_created = 0 := by
    by_cases hc : opts.migrate_carmis
    · rw [if_pos hc, migrateCarmis_dry_bindings opts o ds _ hdry]
      exact h1
    · rw [if_neg hc]
      exact h1
  by_cases hq : opts.migrate_coupons
  · rw [if_pos hq, migrateCoupons_dry_bindings opts o ds _ hdry]
    exact h2
  · rw [if_neg hq]
    exact h2

/-- Full-run parity: a simulate run and a commit run against the
always-succeeding client stand in the `ParityInv` relation. -/
theorem runEngine_parity (opts : MigrationOptions) (o : ClientOracle) (ds : Dataset)
    (hdry : opts.dry_run = true) (hB : opts.batch_size ≠ 0)
    (hcontent : ∀ gid : Int, ∀ c ∈ ds.carmisOf gid, c.carmi ≠ "") :
    ParityInv (runEngine opts o ds)
      (runEngine { opts with dry_run := false } okOracle ds) := by
  have hdry2 : ({ opts with dry_run := false } : MigrationOptions).dry_run = false := rfl
  have hskip : opts.skip_disabled
      = ({ opts with dry_run := false } : MigrationOptions).skip_disabled := rfl
  have hB2 : ({ opts with dry_run := false } : MigrationOptions).batch_size ≠ 0 := hB
  have base : ParityInv initState initState := ⟨rfl, rfl, rfl, rfl, rfl, rfl, rfl, rfl⟩
  unfold runEngine
  have hmp : ({ opts with dry_run := false } : MigrationOptions).migrate_products
      = opts.migrate_products := rfl
  have hmc : ({ opts with dry_run := false } : MigrationOptions).migrate_carmis
      = opts.migrate_carmis := rfl
  have hmq : ({ opts with dry_run := false } : MigrationOptions).migrate_coupons
      = opts.migrate_coupons := rfl
  rw [hmp, hmc, hmq]
  have p1 : ParityInv
      (if opts.migrate_products then migrateProducts opts o ds initState else initState)
      (if opts.migrate_products then
        migrateProducts { opts with dry_run := false } okOracle ds initState
       else initState) := by
    by_cases hp : opts.migrate_products
    · rw [if_pos hp, if_pos hp]
      exact productsStage_parity opts _ o ds hdry hdry2 hskip _ _ base
    · rw [if_neg hp, if_neg hp]
      exact base
  have p2 : ParityInv
      (if opts.migrate_carmis then migrateCarmis opts o ds
        (if opts.migrate_products then migrateProducts opts o ds initState else initState)
       else (if opts.migrate_products then migrateProducts opts o ds initState
        else initState))
      (if opts.migrate_carmis then migrateCarmis { opts with dry_run := false } okOracle ds
        (if opts.migrate_products then
          migrateProducts { opts with dry_run := false } okOracle ds initState
         else initState)
       else (if opts.migrate_products then
          migrateProducts { opts with dry_run := false } okOracle ds initState
         else initState)) := by
    by_cases hc : opts.migrate_carmis
    · rw [if_pos hc, if_pos hc]
      exact carmisStage_parity opts _ o ds hdry hdry2 hB2 hcontent _ _ p1
    · rw [if_neg hc, if_neg hc]
      exact p1
  by_cases hq : opts.migrate_coupons
  · rw [if_pos hq, if_pos hq]
    exact couponsStage_parity opts _ o ds hdry hdry2 _ _ p2
  · rw [if_neg hq, if_neg hq]
    exact p2

/-! ### Request-loop lemmas -/

/-- The sleep performed for a 429 at attempt `a`: the server-provided
`Retry-After` duration when present, else `retry_delay * attempt`. -/
def rlWait (cfg : RetryConfig) (ra : Nat → Option Rat) (a : Nat) : Rat :=
  (ra a).getD (cfg.retry_delay * (a : Rat))

theorem requestLoopAux_allRateLimited (cfg : RetryConfig) (resp : Nat → HttpOutcome)
    (ra : Nat → Option Rat) (h : ∀ i, resp i = .rateLimited (ra i)) :
    ∀ (rem : Nat), rem ≤ cfg.retry_count →
      ∀ (lastErr : Option String) (waits : List Rat),
      requestLoopAux cfg resp rem lastErr waits =
        (waits ++ (List.range rem).map
          (fun j => rlWait cfg ra (cfg.retry_count - rem + (j + 1))),
         .error lastErr) := by
  intro rem
  induction rem with
  | zero =>
    intro _ lastErr waits
    simp [requestLoopAux]
  | succ r ih =>
    intro hle lastErr waits
    rw [requestLoopAux]
    simp only [h (cfg.retry_count - r)]
    rw [ih (by omega) lastErr _]
    have hrange : List.range (r + 1) = 0 :: (List.range r).map (fun j => j + 1) := by
      rw [List.range_succ_eq_map]
    rw [hrange]
    simp only [List.map_cons, List.map_map]
    have h0 : cfg.retry_count - (r + 1) + (0 + 1) = cfg.retry_count - r := by omega
    have hj : ∀ j, cfg.retry_count - (r + 1) + (j + 1 + 1)
        = cfg.retry_count - r + (j + 1) := by
      intro j
      omega
    have hmap : ((List.range r).map
          ((fun j => rlWait cfg ra (cfg.retry_count - (r + 1) + (j + 1))) ∘ fun j => j + 1))
        = (List.range r).map (fun j => rlWait cfg ra (cfg.retry_count - r + (j + 1))) := by
      refine List.map_congr_left ?_
      intro j _
      simp only [Function.comp]
      rw [hj j]
    rw [hmap, h0]
    simp [rlWait]

theorem requestLoopAux_allTransport (cfg : RetryConfig) (resp : Nat → HttpOutcome)
    (e : Nat → String) (h : ∀ i, resp i = .transportError (e i)) :
    ∀ (rem : Nat), 1 ≤ rem →
      ∀ (lastErr : Option String) (waits : List Rat),
      (requestLoopAux cfg resp rem lastErr waits).2
        = .error (some (e cfg.retry_count)) := by
  intro rem
  induction rem with
  | zero => intro h1; omega
  | succ r ih =>
    intro _ lastErr waits
    rw [requestLoopAux]
    simp only [h (cfg.retry_count - r)]
    cases r with
    | zero =>
      rw [requestLoopAux]
      simp
    | succ r2 =>
      exact ih (by omega) _ _

/-! ### Concrete fixtures for witnesses and counterexamples -/

/-- One product (id 1) with a single non-reusable unsold code. -/
def dsA : Dataset :=
  { goodsList := fun _ => [{ id := 1 }],
    carmisOf := fun g => if g = 1 then [{ carmi := "A", is_loop := false }] else [],
    coupons := [],
    couponGoods := fun _ => [] }

/-- No products, one coupon with no product references. -/
def dsB : Dataset :=
  { goodsList := fun _ => [],
    carmisOf := fun _ => [],
    coupons := [{ id := 1, code := "SAVE" }],
    couponGoods := fun _ => [] }

/-- Two products, for exercising a mixed success/failure create run. -/
def dsC : Dataset :=
  { goodsList := fun _ => [{ id := 1 }, { id := 2 }],
    carmisOf := fun _ => [],
    coupons := [],
    couponGoods := fun _ => [] }

/-- One product with three non-reusable codes and one reusable code. -/
def dsD : Dataset :=
  { goodsList := fun _ => [{ id := 1 }],
    carmisOf := fun g =>
      if g = 1 then
        [{ carmi := "n1", is_loop := false }, { carmi := "n2", is_loop := false },
         { carmi := "L1", is_loop := true }, { carmi := "n3", is_loop := false }]
      else [],
    coupons := [],
    couponGoods := fun _ => [] }

/-- One coupon referencing a migrated product, a sentinel-mapped product
and an unmapped product. -/
def dsE : Dataset :=
  { goodsList := fun _ => [],
    carmisOf := fun _ => [],
    coupons := [{ id := 3, code := "X" }],
    couponGoods := fun cid => if cid = 3 then [1, 2, 9] else [] }

/-- Simulate-mode options, defaults otherwise. -/
def optsSim : MigrationOptions := { dry_run := true }

/-- Commit-mode options, defaults otherwise. -/
def optsCommit : MigrationOptions := { dry_run := false }

/-- Commit-mode options with bulk-import batch size 2. -/
def optsB2 : MigrationOptions := { dry_run := false, batch_size := 2 }

/-- A client whose inventory-create call always raises. -/
def errVinvOracle : ClientOracle :=
  { okOracle with createVinv := fun _ => .error "boom" }

/-- A client on which every operation raises. -/
def errAllOracle : ClientOracle where
  createProduct := fun _ => .error "down"
  createVinv := fun _ => .error "down"
  importStock := fun _ _ => .error "down"
  createStockItem := fun _ _ => .error "down"
  reserveStock := fun _ _ => .error "down"
  bindVinv := fun _ _ => .error "down"
  createPromo := fun _ => .error "down"

/-- A client that returns id 7 for product 1 and raises for any other
product. -/
def mixedOracle : ClientOracle :=
  { okOracle with
    createProduct := fun gid =>
      if gid = 1 then .ok { id := some 7, data_id := none } else .error "down" }

/-- Engine state whose product map holds one real mapping. -/
def stA : EngineState := { initState with product_map := [(1, 5)] }

/-! ### Claim C1 -/

/-- C1, counterexample: on a dataset with one product holding one stock
item, a simulate run ends with binding counter 0 while a commit run
against the always-succeeding client ends with binding counter 1 — the
statistics are not equal and the binding counter is not incremented in
simulate mode, because `_migrate_carmis_for_goods` returns from its
dry-run branch before the bind step. -/
theorem c1_counterexample :
    (runEngine optsSim okOracle dsA).stats.bindings_created = 0 ∧
    (runEngine optsCommit okOracle dsA).stats.bindings_created = 1 := by
  constructor <;> rfl

/-- C1 (amended): for a fixed dataset whose stock items all have
non-empty content, a simulate run issues no network calls and produces
the same statistics as a commit run against an always-succeeding API
client in every counter except `bindings_created`: the simulate run's
binding counter stays 0 (the stock routine returns before the bind
step and never increments it). -/
theorem c1_simulate_commit_parity (opts : MigrationOptions) (o : ClientOracle)
    (ds : Dataset) (hdry : opts.dry_run = true) (hB : opts.batch_size ≠ 0)
    (hcontent : ∀ gid : Int, ∀ c ∈ ds.carmisOf gid, c.carmi ≠ "") :
    (runEngine opts o ds).writes = [] ∧
    (runEngine opts o ds).stats.bindings_created = 0 ∧
    (runEngine opts o ds).stats.products_created
      = (runEngine { opts with dry_run := false } okOracle ds).stats.products_created ∧
    (runEngine opts o ds).stats.products_skipped
      = (runEngine { opts with dry_run := false } okOracle ds).stats.products_skipped ∧
    (runEngine opts o ds).stats.products_failed
      = (runEngine { opts with dry_run := false } okOracle ds).stats.products_failed ∧
    (runEngine opts o ds).stats.vinv_created
      = (runEngine { opts with dry_run := false } okOracle ds).stats.vinv_created ∧
    (runEngine opts o ds).stats.carmis_imported
      = (runEngine { opts with dry_run := false } okOracle ds).stats.carmis_imported ∧
    (runEngine opts o ds).stats.coupons_created
      = (runEngine { opts with dry_run := false } okOracle ds).stats.coupons_created ∧
    (runEngine opts o ds).stats.coupons_failed
      = (runEngine { opts with dry_run := false } okOracle ds).stats.coupons_failed := by
  have hp := runEngine_parity opts o ds hdry hB hcontent
  have hd := runEngine_dryInv opts o ds hdry
  exact ⟨hd.2.2, runEngine_dry_bindings opts o ds hdry, hp.2.1, hp.2.2.1, hp.2.2.2.1,
    hp.2.2.2.2.1, hp.2.2.2.2.2.1, hp.2.2.2.2.2.2.1, hp.2.2.2.2.2.2.2⟩

/-- Witness for C1 (amended) at a concrete dataset. -/
theorem c1_simulate_commit_parity_witness :
    (optsSim.dry_run = true ∧ optsSim.batch_size ≠ 0 ∧
      (∀ gid : Int, ∀ c ∈ dsA.carmisOf gid, c.carmi ≠ "")) ∧
    ((runEngine optsSim okOracle dsA).writes = [] ∧
      (runEngine optsSim okOracle dsA).stats.bindings_created = 0 ∧
      (runEngine optsSim okOracle dsA).stats.products_created
        = (runEngine { optsSim with dry_run := false } okOracle dsA).stats.products_created ∧
      (runEngine optsSim okOracle dsA).stats.products_skipped
        = (runEngine { optsSim with dry_run := false } okOracle dsA).stats.products_skipped ∧
      (runEngine optsSim okOracle dsA).stats.products_failed
        = (runEngine { optsSim with dry_run := false } okOracle dsA).stats.products_failed ∧
      (runEngine optsSim okOracle dsA).stats.vinv_created
        = (runEngine { optsSim with dry_run := false } okOracle dsA).stats.vinv_created ∧
      (runEngine optsSim okOracle dsA).stats.carmis_imported
        = (runEngine { optsSim with dry_run := false } okOracle dsA).stats.carmis_imported ∧
      (runEngine optsSim okOracle dsA).stats.coupons_created
        = (runEngine { optsSim with dry_run := false } okOracle dsA).stats.coupons_created ∧
      (runEngine optsSim okOracle dsA).stats.coupons_failed
        = (runEngine { optsSim with dry_run := false } okOracle dsA).stats.coupons_failed) := by
  have hcontent : ∀ gid : Int, ∀ c ∈ dsA.carmisOf gid, c.carmi ≠ "" := by
    intro gid c hc
    by_cases hg : gid = 1
    · subst hg
      simp [dsA] at hc
      subst hc
      decide
    · simp [dsA, hg] at hc
  exact ⟨⟨rfl, by decide, hcontent⟩,
    c1_simulate_commit_parity optsSim okOracle dsA rfl (by decide) hcontent⟩

/-! ### Claim C2 -/

/-- C2: after a commit-mode product stage over goods with distinct
identifiers, a product identifier is mapped exactly to the outcome of
its create call — an entry exists if and only if an extractable (truthy
`id` or `data.id`) identifier came back, and the failed counter counts
exactly the products whose create raised or returned no extractable
identifier (none of which got a mapping entry). -/
theorem c2_mapping_iff_extractable (opts : MigrationOptions) (o : ClientOracle)
    (ds : Dataset) (hdry : opts.dry_run = false)
    (hnodup : ((ds.goodsList opts.skip_disabled).map Goods.id).Nodup) :
    (∀ g ∈ ds.goodsList opts.skip_disabled,
        lookupA (migrateProducts opts o ds initState).product_map g.id
          = createOutcomeId o g) ∧
    (migrateProducts opts o ds initState).stats.products_failed
      = (ds.goodsList opts.skip_disabled).countP
          (fun g => (createOutcomeId o g).isNone) ∧
    (migrateProducts opts o ds initState).stats.products_created
      = (ds.goodsList opts.skip_disabled).countP
          (fun g => (createOutcomeId o g).isSome) := by
  rw [migrateProducts, productsFold_commit opts o hdry]
  have hmap : commitMapInsert o initState.product_map (ds.goodsList opts.skip_disabled)
      = productEntries o (ds.goodsList opts.skip_disabled) := by
    have := commitMapInsert_eq_append o (ds.goodsList opts.skip_disabled) []
      (by intro g _ hc; simp [keysOf] at hc) hnodup
    simpa [initState] using this
  refine ⟨?_, by simp [initState, initStats], by simp [initState, initStats]⟩
  intro g hg
  show lookupA (commitMapInsert o initState.product_map _) g.id = _
  rw [hmap]
  exact lookupA_productEntries o _ hnodup g hg

/-- Witness for C2 at a two-product dataset where the first create
returns id 7 and the second raises. -/
theorem c2_mapping_iff_extractable_witness :
    (optsCommit.dry_run = false ∧
      ((dsC.goodsList optsCommit.skip_disabled).map Goods.id).Nodup) ∧
    ((∀ g ∈ dsC.goodsList optsCommit.skip_disabled,
        lookupA (migrateProducts optsCommit mixedOracle dsC initState).product_map g.id
          = createOutcomeId mixedOracle g) ∧
      (migrateProducts optsCommit mixedOracle dsC initState).stats.products_failed
        = (dsC.goodsList optsCommit.skip_disabled).countP
            (fun g => (createOutcomeId mixedOracle g).isNone) ∧
      (migrateProducts optsCommit mixedOracle dsC initState).stats.products_created
        = (dsC.goodsList optsCommit.skip_disabled).countP
            (fun g => (createOutcomeId mixedOracle g).isSome)) :=
  ⟨⟨rfl, by decide⟩,
    c2_mapping_iff_extractable optsCommit mixedOracle dsC rfl (by decide)⟩

/-! ### Claim C3 -/

/-- The `normal_items` local of `_migrate_carmis_for_goods`: contents
of the non-reusable codes, in source order. -/
def normalItems (ds : Dataset) (gid : Int) : List String :=
  ((ds.carmisOf gid).filter fun c => c.carmi != "" && !c.is_loop).map Carmi.carmi

/-- The `loop_items` local of `_migrate_carmis_for_goods`: the reusable
codes, in source order. -/
def loopItems (ds : Dataset) (gid : Int) : List Carmi :=
  (ds.carmisOf gid).filter fun c => c.carmi != "" && c.is_loop

/-- C3: in commit mode with batch size `B ≥ 1`, one product's stock
migration issues exactly the bulk-import calls for the chunks of its
non-reusable item list: `ceil(N/B)` calls whose batches concatenate
back to the ordered non-reusable list, and whose every element stems
from a non-reusable item; reusable items never enter a batch — each one
gets its own create call followed by a reserve call for the returned
stock id. -/
theorem c3_batch_splitting (opts : MigrationOptions) (o : ClientOracle) (ds : Dataset)
    (gid pid : Int) (st : EngineState) (r : Resp) (vid : Int) (sidF : String → Int)
    (hdry : opts.dry_run = false) (hB : opts.batch_size ≠ 0)
    (hv : o.createVinv gid = .ok r) (hex : extractId r = some vid)
    (hstock : ∀ content, o.createStockItem vid content
      = .ok { stock_id := some (sidF content) })
    (hsid : ∀ content, sidF content ≠ 0) :
    importCallsOf ((migrateCarmisForGoods opts o ds gid pid st).1).writes
      = importCallsOf st.writes
        ++ (chunks opts.batch_size (normalItems ds gid)).map (fun b => (vid, b)) ∧
    (chunks opts.batch_size (normalItems ds gid)).length
      = ((normalItems ds gid).length + opts.batch_size - 1) / opts.batch_size ∧
    (chunks opts.batch_size (normalItems ds gid)).flatten = normalItems ds gid ∧
    (∀ b ∈ chunks opts.batch_size (normalItems ds gid), ∀ x ∈ b,
      ∃ c ∈ ds.carmisOf gid, c.carmi = x ∧ c.is_loop = false) ∧
    stockCreateCallsOf ((migrateCarmisForGoods opts o ds gid pid st).1).writes
      = stockCreateCallsOf st.writes
        ++ (loopItems ds gid).map (fun c => (vid, c.carmi)) ∧
    reserveCallsOf ((migrateCarmisForGoods opts o ds gid pid st).1).writes
      = reserveCallsOf st.writes
        ++ (loopItems ds gid).map (fun c => (vid, sidF c.carmi)) := by
  have hmem : ∀ b ∈ chunks opts.batch_size (normalItems ds gid), ∀ x ∈ b,
      ∃ c ∈ ds.carmisOf gid, c.carmi = x ∧ c.is_loop = false := by
    intro b hb x hx
    have hxn : x ∈ normalItems ds gid := chunks_mem hB hb hx
    simp only [normalItems, List.mem_map] at hxn
    obtain ⟨c, hc, hcx⟩ := hxn
    rw [List.mem_filter] at hc
    refine ⟨c, hc.1, hcx, ?_⟩
    have := hc.2
    simp only [Bool.and_eq_true, Bool.not_eq_true'] at this
    exact this.2
  by_cases he : (ds.carmisOf gid).isEmpty
  · have hnil : ds.carmisOf gid = [] := List.isEmpty_iff.mp he
    have hn : normalItems ds gid = [] := by simp [normalItems, hnil]
    have hl : loopItems ds gid = [] := by simp [loopItems, hnil]
    have hu : (migrateCarmisForGoods opts o ds gid pid st).1 = st := by
      simp [migrateCarmisForGoods, he]
    rw [hu, hn, hl, chunks_nil]
    refine ⟨by simp, ?_, rfl, by simp [chunks_nil], by simp, by simp⟩
    simp [Nat.div_eq_of_lt (by omega : opts.batch_size - 1 < opts.batch_size)]
  · have hup : (migrateCarmisForGoods opts o ds gid pid st).1
        = bindStep o pid vid
            ((loopItems ds gid).foldl (loopItemStep o vid)
              ((chunks opts.batch_size (normalItems ds gid)).foldl
                (importBatchStep o vid)
                { st with
                  vinv_map := insertA st.vinv_map gid vid,
                  stats := { st.stats with
                    vinv_created := st.stats.vinv_created + 1 },
                  writes := st.writes ++ [Call.createVinv gid] })) := by
      simp only [migrateCarmisForGoods, he, if_false, hdry, Bool.false_eq_true, hv, hex]
      rfl
    refine ⟨?_, chunks_length hB _, chunks_join hB _, hmem, ?_, ?_⟩
    · rw [hup, bindStep_importCalls, loopFold_importCalls, importFold_importCalls]
      simp [importCallsOf_append, importCallsOf]
    · rw [hup, bindStep_stockCreateCalls, loopFold_stockCreateCalls,
        importFold_stockCreateCalls]
      simp [stockCreateCallsOf_append, stockCreateCallsOf]
    · rw [hup, bindStep_reserveCalls, loopFold_reserveCalls o vid sidF hstock hsid,
        importFold_reserveCalls]
      simp [reserveCallsOf_append, reserveCallsOf]

/-- Witness for C3: one product with codes n1, n2, L1(reusable), n3 and
batch size 2. -/
theorem c3_batch_splitting_witness :
    (optsB2.dry_run = false ∧ optsB2.batch_size ≠ 0 ∧
      okOracle.createVinv 1 = .ok { id := some 1, data_id := none } ∧
      extractId { id := some 1, data_id := none } = some 1) ∧
    (importCallsOf ((migrateCarmisForGoods optsB2 okOracle dsD 1 5 initState).1).writes
      = importCallsOf initState.writes
        ++ (chunks optsB2.batch_size (normalItems dsD 1)).map (fun b => ((1 : Int), b)) ∧
    (chunks optsB2.batch_size (normalItems dsD 1)).length
      = ((normalItems dsD 1).length + optsB2.batch_size - 1) / optsB2.batch_size ∧
    (chunks optsB2.batch_size (normalItems dsD 1)).flatten = normalItems dsD 1 ∧
    (∀ b ∈ chunks optsB2.batch_size (normalItems dsD 1), ∀ x ∈ b,
      ∃ c ∈ dsD.carmisOf 1, c.carmi = x ∧ c.is_loop = false) ∧
    stockCreateCallsOf ((migrateCarmisForGoods optsB2 okOracle dsD 1 5 initState).1).writes
      = stockCreateCallsOf initState.writes
        ++ (loopItems dsD 1).map (fun c => ((1 : Int), c.carmi)) ∧
    reserveCallsOf ((migrateCarmisForGoods optsB2 okOracle dsD 1 5 initState).1).writes
      = reserveCallsOf initState.writes
        ++ (loopItems dsD 1).map (fun c => ((1 : Int), (fun _ => (1 : Int)) c.carmi))) :=
  ⟨⟨rfl, by decide, rfl, rfl⟩,
    c3_batch_splitting optsB2 okOracle dsD 1 5 initState
      { id := some 1, data_id := none } 1 (fun _ => 1) rfl (by decide) rfl rfl
      (fun _ => rfl) (fun _ => one_ne_zero)⟩

/-! ### Claim C4 -/

/-- C4: the coupon transform excludes every referenced source product
that has no mapping entry or only a non-real (sentinel) mapped value;
an empty resulting list yields platform-wide scope with no
`product_ids` field, a non-empty one yields specific scope whose
`product_ids` are exactly the mapped identifiers; and in commit mode
the create call is issued with exactly this payload. -/
theorem c4_coupon_scope (pm : List (Int × Int)) (ds : Dataset) (c : Coupon) :
    (mappedProductIds pm ds c = [] →
      (couponPayload pm ds c).product_scope = "all" ∧
      (couponPayload pm ds c).product_ids = none) ∧
    (mappedProductIds pm ds c ≠ [] →
      (couponPayload pm ds c).product_scope = "specific" ∧
      (couponPayload pm ds c).product_ids = some (mappedProductIds pm ds c)) ∧
    (∀ x ∈ mappedProductIds pm ds c,
      x > 0 ∧ ∃ gid ∈ ds.couponGoods c.id, lookupA pm gid = some x) ∧
    (∀ gid ∈ ds.couponGoods c.id, ∀ pid, lookupA pm gid = some pid → pid > 0 →
      pid ∈ mappedProductIds pm ds c) ∧
    (∀ (opts : MigrationOptions) (o : ClientOracle) (st : EngineState),
      opts.dry_run = false → st.product_map = pm →
      (migrateCouponStep opts o ds st c).writes
        = st.writes ++ [Call.createPromo (couponPayload pm ds c)]) := by
  refine ⟨?_, ?_, ?_, ?_, ?_⟩
  · intro hnil
    simp [couponPayload, hnil]
  · intro hne
    have : (mappedProductIds pm ds c).isEmpty = false := by
      rcases hc : mappedProductIds pm ds c with _ | _
      · exact absurd hc hne
      · rfl
    simp [couponPayload, this]
  · intro x hx
    simp only [mappedProductIds, List.mem_filterMap] at hx
    obtain ⟨gid, hgid, hf⟩ := hx
    cases hl : lookupA pm gid with
    | none =>
      rw [hl] at hf
      simp at hf
    | some pid =>
      rw [hl] at hf
      by_cases hp : pid > 0
      · simp [hp] at hf
        subst hf
        exact ⟨hp, gid, hgid, hl⟩
      · simp [hp] at hf
  · intro gid hgid pid hl hp
    simp only [mappedProductIds, List.mem_filterMap]
    refine ⟨gid, hgid, ?_⟩
    rw [hl]
    simp [hp]
  · intro opts o st hdry hpm
    subst hpm
    cases h : o.createPromo (couponPayload st.product_map ds c) <;>
      simp [migrateCouponStep, hdry, h]

/-- Witness for C4: coupon 3 references a migrated product (mapped to
7), a sentinel-mapped product and an unmapped product; the payload is
specific with exactly [7]. -/
theorem c4_coupon_scope_witness :
    (mappedProductIds [(1, 7), (2, -1)] dsE { id := 3, code := "X" } ≠ [] ∧
      mappedProductIds [(1, 7), (2, -1)] dsE { id := 3, code := "X" } = [7]) ∧
    ((couponPayload [(1, 7), (2, -1)] dsE { id := 3, code := "X" }).product_scope
        = "specific" ∧
      (couponPayload [(1, 7), (2, -1)] dsE { id := 3, code := "X" }).product_ids
        = some (mappedProductIds [(1, 7), (2, -1)] dsE { id := 3, code := "X" })) :=
  ⟨⟨by decide, by decide⟩,
    (c4_coupon_scope [(1, 7), (2, -1)] dsE { id := 3, code := "X" }).2.1 (by decide)⟩

/-! ### Claim C5 -/

/-- C5, counterexample: with an attempt budget of 2, a request that is
rate-limited on every attempt terminates after exactly two waits with
the terminal error — the 429 retry consumed both attempt slots (it does
not loop indefinitely) and the terminal error carries no underlying
cause (`last_err` is still `None`), because the `continue` in
`_request` goes to the next iteration of the bounded `for` loop. -/
theorem c5_counterexample :
    requestLoop { retry_count := 2, retry_delay := 1 }
        (fun _ => .rateLimited (some 5))
      = ([5, 5], .error none) := rfl

/-- C5 (amended): a 429 response waits for the server-provided duration
when present (else `retry_delay * attempt`) and retries, but the retry
consumes an attempt slot exactly like a transport failure: a request
rate-limited on every attempt performs `retry_count` waits and then
raises the terminal error with no underlying cause, while a request
failing at transport level on every attempt raises the terminal error
carrying the last attempt's cause. -/
theorem c5_rate_limit_consumes_budget (cfg : RetryConfig) (resp : Nat → HttpOutcome) :
    (∀ ra : Nat → Option Rat, (∀ i, resp i = .rateLimited (ra i)) →
      requestLoop cfg resp
        = ((List.range cfg.retry_count).map fun j => rlWait cfg ra (j + 1),
           .error none)) ∧
    (∀ e : Nat → String, (∀ i, resp i = .transportError (e i)) →
      1 ≤ cfg.retry_count →
      (requestLoop cfg resp).2 = .error (some (e cfg.retry_count))) := by
  constructor
  · intro ra h
    rw [requestLoop, requestLoopAux_allRateLimited cfg resp ra h cfg.retry_count le_rfl]
    simp [Nat.sub_self]
  · intro e h hc
    rw [requestLoop]
    exact requestLoopAux_allTransport cfg resp e h cfg.retry_count hc none []

/-- Witness for C5 (amended) with budget 3: three server-provided waits
then a cause-less terminal error; and a transport-failing request whose
terminal error names the last cause. -/
theorem c5_rate_limit_consumes_budget_witness :
    requestLoop { retry_count := 3, retry_delay := 2 }
        (fun _ => .rateLimited (some 5)) = ([5, 5, 5], .error none) ∧
    (requestLoop { retry_count := 3, retry_delay := 2 }
        (fun _ => .transportError "down")).2 = .error (some "down") := by
  constructor
  · have h := (c5_rate_limit_consumes_budget { retry_count := 3, retry_delay := 2 }
      (fun _ => .rateLimited (some 5))).1 (fun _ => some 5) (fun _ => rfl)
    rw [h]
    rfl
  · exact (c5_rate_limit_consumes_budget { retry_count := 3, retry_delay := 2 }
      (fun _ => .transportError "down")).2 (fun _ => "down") (fun _ => rfl) (by decide)

/-! ### Claim C6 -/

/-- C6, counterexample: with product 1 mapped and one stock item, a
client whose inventory-create call raises makes the stock-migration
unit raise; `migrate_carmis` catches and logs it, but afterwards every
statistics counter is unchanged — the failure is not counted in any
failure statistic (no stock-failure counter exists). -/
theorem c6_counterexample :
    (migrateCarmisForGoods optsCommit errVinvOracle dsA 1 5 stA).2 = true ∧
    (migrateCarmis optsCommit errVinvOracle dsA stA).stats = stA.stats := by
  constructor <;> rfl

/-- C6 (amended): a per-product failure in the product stage and a
per-coupon failure in the coupon stage are each caught at the unit
boundary, counted (`products_failed` / `coupons_failed`) and the fold
continues; a failure of one product's stock-migration unit is caught at
the unit boundary and logged but leaves the statistics untouched —
there is no counter for it. -/
theorem c6_unit_failure_isolation :
    (∀ (opts : MigrationOptions) (o : ClientOracle) (st : EngineState) (g : Goods)
      (e : String), opts.dry_run = false → o.createProduct g.id = .error e →
      migrateProductsStep opts o st g
        = { st with
            stats := { st.stats with
              products_failed := st.stats.products_failed + 1 },
            writes := st.writes ++ [Call.createProduct g.id] }) ∧
    (∀ (opts : MigrationOptions) (o : ClientOracle) (ds : Dataset) (st : EngineState)
      (c : Coupon) (e : String), opts.dry_run = false →
      o.createPromo (couponPayload st.product_map ds c) = .error e →
      migrateCouponStep opts o ds st c
        = { st with
            stats := { st.stats with
              coupons_failed := st.stats.coupons_failed + 1 },
            writes := st.writes
              ++ [Call.createPromo (couponPayload st.product_map ds c)] }) ∧
    (∀ (opts : MigrationOptions) (o : ClientOracle) (ds : Dataset) (gid pid : Int)
      (st : EngineState) (e : String), opts.dry_run = false →
      ¬(ds.carmisOf gid).isEmpty → o.createVinv gid = .error e →
      migrateCarmisForGoods opts o ds gid pid st
        = ({ st with writes := st.writes ++ [Call.createVinv gid] }, true)) := by
  refine ⟨?_, ?_, ?_⟩
  · intro opts o st g e hdry herr
    simp [migrateProductsStep, hdry, herr]
  · intro opts o ds st c e hdry herr
    simp [migrateCouponStep, hdry, herr]
  · intro opts o ds gid pid st e hdry hne herr
    simp [migrateCarmisForGoods, hne, hdry, herr]

/-- Witness for C6 (amended) against the all-raising client. -/
theorem c6_unit_failure_isolation_witness :
    (optsCommit.dry_run = false ∧ errAllOracle.createProduct 1 = .error "down" ∧
      ¬(dsA.carmisOf 1).isEmpty ∧ errAllOracle.createVinv 1 = .error "down") ∧
    migrateProductsStep optsCommit errAllOracle initState { id := 1 }
      = { initState with
          stats := { initState.stats with
            products_failed := initState.stats.products_failed + 1 },
          writes := initState.writes ++ [Call.createProduct 1] } ∧
    migrateCarmisForGoods optsCommit errAllOracle dsA 1 5 stA
      = ({ stA with writes := stA.writes ++ [Call.createVinv 1] }, true) :=
  ⟨⟨rfl, rfl, by decide, rfl⟩,
    (c6_unit_failure_isolation).1 optsCommit errAllOracle initState { id := 1 } "down"
      rfl rfl,
    (c6_unit_failure_isolation).2.2 optsCommit errAllOracle dsA 1 5 stA "down"
      rfl (by decide) rfl⟩

/-! ### Claim C7 -/

/-- C7, counterexample: with an empty product mapping and one coupon,
the commit-mode coupon stage does not skip: it issues a promo-code
create call (platform-wide scope) and increments the created counter. -/
theorem c7_counterexample :
    (migrateCoupons optsCommit okOracle dsB initState).writes
      = [Call.createPromo
          { code := "SAVE", product_scope := "all", product_ids := none }] ∧
    (migrateCoupons optsCommit okOracle dsB initState).stats.coupons_created = 1 := by
  constructor <;> rfl

/-- C7 (amended): with an empty product mapping, the stock stage is a
strict no-op (skips with a warning, no writes and no statistics
changes), but the coupon stage does not check the mapping: every coupon
is still processed — it resolves to platform-wide scope and adds one to
created-plus-failed — so the stage is a no-op only when there are no
coupons. -/
theorem c7_empty_mapping (opts : MigrationOptions) (o : ClientOracle) (ds : Dataset)
    (st : EngineState) (h : st.product_map = []) :
    migrateCarmis opts o ds st = st ∧
    (∀ c : Coupon, couponPayload st.product_map ds c
      = { code := c.code, product_scope := "all", product_ids := none }) ∧
    (migrateCoupons opts o ds st).stats.coupons_created
        + (migrateCoupons opts o ds st).stats.coupons_failed
      = st.stats.coupons_created + st.stats.coupons_failed + ds.coupons.length := by
  refine ⟨?_, ?_, ?_⟩
  · rw [migrateCarmis_eq_fold]
    simp [h]
  · intro c
    have hm : mappedProductIds st.product_map ds c = [] := by
      rw [h]
      simp only [mappedProductIds, lookupA]
      induction ds.couponGoods c.id with
      | nil => rfl
      | cons gid gids ih => simpa using ih
    simp [couponPayload, hm]
  · exact (couponsFold_counts opts o ds ds.coupons st).1

/-- Witness for C7 (amended) on the one-coupon dataset. -/
theorem c7_empty_mapping_witness :
    initState.product_map = [] ∧
    (migrateCarmis optsCommit okOracle dsB initState = initState ∧
      (∀ c : Coupon, couponPayload initState.product_map dsB c
        = { code := c.code, product_scope := "all", product_ids := none }) ∧
      (migrateCoupons optsCommit okOracle dsB initState).stats.coupons_created
          + (migrateCoupons optsCommit okOracle dsB initState).stats.coupons_failed
        = initState.stats.coupons_created + initState.stats.coupons_failed
            + dsB.coupons.length) :=
  ⟨rfl, c7_empty_mapping optsCommit okOracle dsB initState rfl⟩

/-! ### Claim C8 -/

/-- C8: the bulk-import override suppresses the session's JSON content
type exactly for the duration of the one call — the body runs on
headers whose Content-Type is absent — and the session headers after
the `finally` block are pointwise identical to the headers before the
call, for every body, including bodies that raise (the quantification
over `body` covers every `Except.error` outcome); for every other
operation (empty override) the body sees the session headers unchanged
and the session is returned as it was. -/
theorem c8_scoped_header_override (session : Headers)
    (body : Headers → Except String Resp) :
    ((requestWithOverride session importOverride body).1
        = body (popHeader session "Content-Type") ∧
      popHeader session "Content-Type" "Content-Type" = none ∧
      (∀ k, (requestWithOverride session importOverride body).2 k = session k)) ∧
    requestWithOverride session [] body = (body session, session) := by
  refine ⟨⟨rfl, by simp [popHeader], ?_⟩, rfl⟩
  intro k
  simp only [requestWithOverride, importOverride, List.foldl_cons, List.foldl_nil]
  cases hct : session "Content-Type" with
  | some v =>
    by_cases hk : k = "Content-Type"
    · subst hk
      simp [setHeader, popHeader, hct]
    · simp [setHeader, popHeader, hk]
  | none =>
    by_cases hk : k = "Content-Type"
    · subst hk
      simp [popHeader, hct]
    · simp [popHeader, hk]

/-! ### Claim C9 -/

/-- C9: the products-skipped counter starts at zero and no engine
operation in any mode, against any client, over any dataset ever
increments it — after a full run it is still zero, so the summary row
always shows zero. -/
theorem c9_products_skipped_always_zero (opts : MigrationOptions) (o : ClientOracle)
    (ds : Dataset) :
    initState.stats.products_skipped = 0 ∧
    (runEngine opts o ds).stats.products_skipped = 0 := by
  refine ⟨rfl, ?_⟩
  unfold runEngine
  have h1 : (if opts.migrate_products then migrateProducts opts o ds initState
      else initState).stats.products_skipped = 0 := by
    by_cases hp : opts.migrate_products
    · rw [if_pos hp, migrateProducts, productsFold_skipped]
      rfl
    · rw [if_neg hp]
      rfl
  have h2 : (if opts.migrate_carmis then
      migrateCarmis opts o ds (if opts.migrate_products then
        migrateProducts opts o ds initState else initState)
      else (if opts.migrate_products then migrateProducts opts o ds initState
        else initState)).stats.products_skipped = 0 := by
    by_cases hc : opts.migrate_carmis
    · rw [if_pos hc, migrateCarmis_skipped]
      exact h1
    · rw [if_neg hc]
      exact h1
  by_cases hq : opts.migrate_coupons
  · rw [if_pos hq, migrateCoupons_skipped]
    exact h2
  · rw [if_neg hq]
    exact h2

/-! ### Claim C10 -/

/-- C10: the run-end artifact always carries both identifier maps keyed
by the string form of the source identifiers, and in simulate mode
every persisted mapped value — in both maps — is the sentinel -1. -/
theorem c10_simulate_artifact_sentinel (opts : MigrationOptions) (o : ClientOracle)
    (ds : Dataset) (hdry : opts.dry_run = true) :
    (printSummaryArtifact (runEngine opts o ds)).product_map
      = (runEngine opts o ds).product_map.map (fun kv => (toString kv.1, kv.2)) ∧
    (printSummaryArtifact (runEngine opts o ds)).virtual_inventory_map
      = (runEngine opts o ds).vinv_map.map (fun kv => (toString kv.1, kv.2)) ∧
    (∀ p ∈ (printSummaryArtifact (runEngine opts o ds)).product_map, p.2 = -1) ∧
    (∀ p ∈ (printSummaryArtifact (runEngine opts o ds)).virtual_inventory_map,
      p.2 = -1) := by
  have hd := runEngine_dryInv opts o ds hdry
  refine ⟨rfl, rfl, ?_, ?_⟩
  · intro p hp
    simp only [printSummaryArtifact, List.mem_map] at hp
    obtain ⟨kv, hkv, rfl⟩ := hp
    exact hd.1 kv hkv
  · intro p hp
    simp only [printSummaryArtifact, List.mem_map] at hp
    obtain ⟨kv, hkv, rfl⟩ := hp
    exact hd.2.1 kv hkv

/-- Witness for C10 on a dataset with one product and one stock item:
the simulate run maps product 1 and its inventory to the sentinel. -/
theorem c10_simulate_artifact_sentinel_witness :
    optsSim.dry_run = true ∧
    ((printSummaryArtifact (runEngine optsSim okOracle dsA)).product_map
      = (runEngine optsSim okOracle dsA).product_map.map
          (fun kv => (toString kv.1, kv.2)) ∧
    (printSummaryArtifact (runEngine optsSim okOracle dsA)).virtual_inventory_map
      = (runEngine optsSim okOracle dsA).vinv_map.map
          (fun kv => (toString kv.1, kv.2)) ∧
    (∀ p ∈ (printSummaryArtifact (runEngine optsSim okOracle dsA)).product_map,
      p.2 = -1) ∧
    (∀ p ∈ (printSummaryArtifact
        (runEngine optsSim okOracle dsA)).virtual_inventory_map, p.2 = -1)) :=
  ⟨rfl, c10_simulate_artifact_sentinel optsSim okOracle dsA rfl⟩

end Migration
